import Mathlib

/-!
# len_libevent

A verification development for the `len_libevent` repository: the struct-timeval
macros and integer limits of `event2/util.h`, the `hello-world.c` sample server, the
flag sets and the evtimer and evsignal aliases of `event2/event.h` and
`event2/bufferevent.h`, the evbuffer operations declared in `event2/buffer.h`, and the
priorities, timeouts and rate limiting that the headers document.

C integers are modelled as `Int`/`Nat`; a C function that calls into the library is
modelled as the list of library calls it issues (its trace) together with its return
value, the values returned by the library being supplied by a record of type `Lib`.
-/

namespace LenLibevent

/-! ## event2/util.h: manipulation macros for struct timeval -/

/-- The C `struct timeval`: seconds and microseconds, both signed. -/
structure timeval where
  tv_sec : Int
  tv_usec : Int
deriving DecidableEq, Repr

/-- The relational operators that `evutil_timercmp` recognises for `cmp`:
`==`, `<=`, `<`, `>=` and `>`. -/
inductive cmp_op where
  | eq
  | le
  | lt
  | ge
  | gt
deriving DecidableEq, Repr

/-- The C expression `x cmp y` on integers. -/
def cmp_op.holds : cmp_op → Int → Int → Bool
  | .eq, x, y => decide (x = y)
  | .le, x, y => decide (x ≤ y)
  | .lt, x, y => decide (x < y)
  | .ge, x, y => decide (x ≥ y)
  | .gt, x, y => decide (x > y)

/-- util.h, `evutil_timercmp(tvp, uvp, cmp)`:
`((tvp)->tv_sec == (uvp)->tv_sec) ? ((tvp)->tv_usec cmp (uvp)->tv_usec)
 : ((tvp)->tv_sec cmp (uvp)->tv_sec)`. -/
def evutil_timercmp (tvp uvp : timeval) (cmp : cmp_op) : Bool :=
  if tvp.tv_sec = uvp.tv_sec then cmp.holds tvp.tv_usec uvp.tv_usec
  else cmp.holds tvp.tv_sec uvp.tv_sec

/-- util.h, the fallback `evutil_timeradd(tvp, uvp, vvp)` (used when the platform has
no `timeradd`); the result is the value left in `*vvp`. -/
def evutil_timeradd (tvp uvp : timeval) : timeval :=
  let vvp : timeval := { tv_sec := tvp.tv_sec + uvp.tv_sec, tv_usec := tvp.tv_usec + uvp.tv_usec }
  if vvp.tv_usec ≥ 1000000 then
    { tv_sec := vvp.tv_sec + 1, tv_usec := vvp.tv_usec - 1000000 }
  else vvp

/-- util.h, the fallback `evutil_timersub(tvp, uvp, vvp)`; the result is the value left
in `*vvp`. -/
def evutil_timersub (tvp uvp : timeval) : timeval :=
  let vvp : timeval := { tv_sec := tvp.tv_sec - uvp.tv_sec, tv_usec := tvp.tv_usec - uvp.tv_usec }
  if vvp.tv_usec < 0 then
    { tv_sec := vvp.tv_sec - 1, tv_usec := vvp.tv_usec + 1000000 }
  else vvp

/-! ## Constants of event2/event.h, event2/bufferevent.h and event2/listener.h -/

def EV_TIMEOUT : Nat := 0x01
def EV_READ : Nat := 0x02
def EV_WRITE : Nat := 0x04
def EV_SIGNAL : Nat := 0x08
def EV_PERSIST : Nat := 0x10

def BEV_EVENT_READING : Nat := 0x01
def BEV_EVENT_WRITING : Nat := 0x02
def BEV_EVENT_EOF : Nat := 0x10
def BEV_EVENT_ERROR : Nat := 0x20
def BEV_EVENT_TIMEOUT : Nat := 0x40
def BEV_EVENT_CONNECTED : Nat := 0x80

def BEV_OPT_CLOSE_ON_FREE : Nat := 1 <<< 0

def LEV_OPT_CLOSE_ON_FREE : Nat := 1 <<< 1
def LEV_OPT_REUSEABLE : Nat := 1 <<< 3

/-- The bytes of an ASCII string. -/
def ascii (s : String) : List Nat :=
  s.toList.map Char.toNat

/-! ## libevent_test/hello-world.c -/

namespace HelloWorld

/-- A non-NULL `struct event_base *`. -/
abbrev event_base := Nat
/-- A non-NULL `struct evconnlistener *`. -/
abbrev evconnlistener := Nat
/-- A non-NULL `struct event *`. -/
abbrev event := Nat
/-- A non-NULL `struct bufferevent *`. -/
abbrev bufferevent := Nat
/-- A `struct evbuffer *` as returned by `bufferevent_get_output`. -/
abbrev evbuffer_ref := Nat

/-- The four callbacks that hello-world.c defines and hands to the library. -/
inductive callback where
  | listener_cb
  | conn_writecb
  | conn_eventcb
  | signal_cb
deriving DecidableEq, Repr

/-- The `struct sockaddr_in` that `main` fills in. `sin_port` is held as the two bytes
the field has in memory. -/
structure sockaddr_in where
  sin_family : Nat
  sin_port : List Nat
  sin_addr : Nat
deriving DecidableEq, Repr

/-- The array a C string literal initialises: its characters, then a terminating NUL. -/
def c_string (s : String) : List Nat :=
  ascii s ++ [0]

/-- The array `static const char MESSAGE[] = "Hello, World!\n";`. -/
def MESSAGE : List Nat := c_string "Hello, World!\n"

/-- The constant `static const int PORT = 9995;`. -/
def PORT : Nat := 9995

/-- C `sizeof` of a char array: the number of its elements. -/
def sizeof (a : List Nat) : Nat := a.length

/-- C `strlen`: the number of chars before the first NUL. -/
def strlen : List Nat → Nat
  | [] => 0
  | c :: cs => if c = 0 then 0 else strlen cs + 1

/-- C `htons` of a 16-bit value, as the two bytes of the result in memory
(network byte order: most significant byte first). -/
def htons (x : Nat) : List Nat := [x / 256 % 256, x % 256]

/-- A call that hello-world.c makes into libevent or the C library, with its
arguments. A pointer argument that may be `NULL` is an `Option`. -/
inductive Call where
  | event_base_new
  | fprintf_stderr (fmt : String)
  | printf (fmt : String)
  | htons (hostshort : Nat)
  | evconnlistener_new_bind (base : event_base) (cb : callback) (ptr : Nat) (flags : Nat)
      (backlog : Int) (sa : sockaddr_in) (socklen : Nat)
  | event_new (base : event_base) (fd : Int) (events : Nat) (cb : callback) (arg : Nat)
  | event_add (ev : event) (timeout : Option timeval)
  | event_base_dispatch (base : event_base)
  | evconnlistener_free (lev : evconnlistener)
  | event_free (ev : event)
  | event_base_free (base : event_base)
  | bufferevent_socket_new (base : event_base) (fd : Int) (options : Nat)
  | event_base_loopbreak (base : event_base)
  | bufferevent_setcb (bufev : bufferevent) (readcb writecb eventcb : Option callback)
      (cbarg : Option Nat)
  | bufferevent_enable (bufev : bufferevent) (ev : Nat)
  | bufferevent_disable (bufev : bufferevent) (ev : Nat)
  | strlen (s : List Nat)
  | bufferevent_write (bufev : bufferevent) (data : List Nat) (size : Nat)
  | bufferevent_get_output (bufev : bufferevent)
  | evbuffer_get_length (buf : evbuffer_ref)
  | bufferevent_free (bufev : bufferevent)
  | strerror (errnum : Int)
  | event_base_loopexit (base : event_base) (tv : Option timeval)
deriving DecidableEq, Repr

/-- Whether a call can change the state of the library or of the process: every call
but the pure queries (`htons`, `strlen`, `strerror`, `bufferevent_get_output`,
`evbuffer_get_length`). -/
def Call.state_changing : Call → Bool
  | .htons _ => false
  | .strlen _ => false
  | .strerror _ => false
  | .bufferevent_get_output _ => false
  | .evbuffer_get_length _ => false
  | _ => true

/-- Whether a call is `bufferevent_free`. -/
def Call.is_bufferevent_free : Call → Bool
  | .bufferevent_free _ => true
  | _ => false

/-- Whether a call is `bufferevent_write`. -/
def Call.is_bufferevent_write : Call → Bool
  | .bufferevent_write _ _ _ => true
  | _ => false

/-- The bytes a `bufferevent_write(bufev, data, size)` call queues: the first `size`
bytes at `data`. No other call queues bytes. -/
def Call.bytes_queued : Call → List Nat
  | .bufferevent_write _ data size => data.take size
  | _ => []

/-- Whether a call controls the event loop (`event_base_loopexit` or
`event_base_loopbreak`). -/
def Call.is_loop_control : Call → Bool
  | .event_base_loopexit _ _ => true
  | .event_base_loopbreak _ => true
  | _ => false

/-- What the library and the platform answer during one run of a function of
hello-world.c: the value each library call returns (`none` is `NULL`), `errno`, and
the platform constants the program uses. -/
structure Lib where
  event_base_new : Option event_base
  evconnlistener_new_bind : Option evconnlistener
  event_new : Option event
  event_add : Int
  event_base_dispatch : Int
  bufferevent_socket_new : Option bufferevent
  bufferevent_get_output : evbuffer_ref
  evbuffer_get_length : Nat
  errno : Int
  AF_INET : Nat
  SIGINT : Int
  sizeof_sockaddr_in : Nat

/-- hello-world.c, `main` (the non-Windows build): the calls it makes and the value
it returns. `evsignal_new(b, x, cb, arg)` is the event.h alias of
`event_new(b, x, EV_SIGNAL|EV_PERSIST, cb, arg)`; `event_add` is only called when
`signal_event` is not `NULL`. -/
def main (lib : Lib) (_argc : Int) (_argv : List String) : List Call × Int :=
  let sin0 : sockaddr_in := { sin_family := 0, sin_port := [0, 0], sin_addr := 0 }
  match lib.event_base_new with
  | none =>
    ([.event_base_new, .fprintf_stderr "Could not initialize libevent!\n"], 1)
  | some base =>
    let sin : sockaddr_in := { sin0 with sin_family := lib.AF_INET, sin_port := htons PORT }
    let bind : Call := .evconnlistener_new_bind base .listener_cb base
      (LEV_OPT_REUSEABLE ||| LEV_OPT_CLOSE_ON_FREE) (-1) sin lib.sizeof_sockaddr_in
    match lib.evconnlistener_new_bind with
    | none =>
      ([.event_base_new, .htons PORT, bind,
        .fprintf_stderr "Could not create a listener!\n"], 1)
    | some listener =>
      let signew : Call := .event_new base lib.SIGINT (EV_SIGNAL ||| EV_PERSIST) .signal_cb base
      match lib.event_new with
      | none =>
        ([.event_base_new, .htons PORT, bind, signew,
          .fprintf_stderr "Could not create/add a signal event!\n"], 1)
      | some signal_event =>
        if lib.event_add < 0 then
          ([.event_base_new, .htons PORT, bind, signew, .event_add signal_event none,
            .fprintf_stderr "Could not create/add a signal event!\n"], 1)
        else
          ([.event_base_new, .htons PORT, bind, signew, .event_add signal_event none,
            .event_base_dispatch base,
            .evconnlistener_free listener,
            .event_free signal_event,
            .event_base_free base,
            .printf "done\n"], 0)

/-- hello-world.c, `listener_cb`: the calls it makes. `base` is `user_data`. -/
def listener_cb (lib : Lib) (_listener : evconnlistener) (fd : Int) (_sa : Nat)
    (_socklen : Int) (user_data : Nat) : List Call :=
  let base : event_base := user_data
  match lib.bufferevent_socket_new with
  | none =>
    [.bufferevent_socket_new base fd BEV_OPT_CLOSE_ON_FREE,
     .fprintf_stderr "Error constructing bufferevent!",
     .event_base_loopbreak base]
  | some bev =>
    [.bufferevent_socket_new base fd BEV_OPT_CLOSE_ON_FREE,
     .bufferevent_setcb bev none (some .conn_writecb) (some .conn_eventcb) none,
     .bufferevent_enable bev EV_WRITE,
     .bufferevent_disable bev EV_READ,
     .strlen MESSAGE,
     .bufferevent_write bev MESSAGE (strlen MESSAGE)]

/-- hello-world.c, `conn_writecb`: the calls it makes. -/
def conn_writecb (lib : Lib) (bev : bufferevent) (_user_data : Nat) : List Call :=
  let output := lib.bufferevent_get_output
  if lib.evbuffer_get_length = 0 then
    [.bufferevent_get_output bev, .evbuffer_get_length output,
     .printf "flushed answer\n",
     .bufferevent_free bev]
  else
    [.bufferevent_get_output bev, .evbuffer_get_length output]

/-- hello-world.c, `conn_eventcb`: the calls it makes. `events` is the bit pattern of
the `short` argument. -/
def conn_eventcb (lib : Lib) (bev : bufferevent) (events : Nat) (_user_data : Nat) :
    List Call :=
  if events &&& BEV_EVENT_EOF ≠ 0 then
    [.printf "Connection closed.\n", .bufferevent_free bev]
  else if events &&& BEV_EVENT_ERROR ≠ 0 then
    [.strerror lib.errno, .printf "Got an error on the connection: %s\n",
     .bufferevent_free bev]
  else
    [.bufferevent_free bev]

/-- hello-world.c, `signal_cb`: the calls it makes. `base` is `user_data`. -/
def signal_cb (_sig : Int) (_events : Nat) (user_data : Nat) : List Call :=
  let base : event_base := user_data
  let delay : timeval := { tv_sec := 2, tv_usec := 0 }
  [.printf "Caught an interrupt signal; exiting cleanly in two seconds.\n",
   .event_base_loopexit base (some delay)]

/-- A run of the library in which every set-up call succeeds, the accepted connection
gets bufferevent 7 and its output buffer is empty. -/
def lib_ok : Lib :=
  { event_base_new := some 1, evconnlistener_new_bind := some 2, event_new := some 3,
    event_add := 0, event_base_dispatch := 1, bufferevent_socket_new := some 7,
    bufferevent_get_output := 8, evbuffer_get_length := 0, errno := 0,
    AF_INET := 2, SIGINT := 2, sizeof_sockaddr_in := 16 }

/-- A run in which the output buffer still holds the 14 bytes of the message. -/
def lib_pending : Lib :=
  { lib_ok with evbuffer_get_length := 14 }

/-- A run in which `event_add` fails with -1. -/
def lib_add_fails : Lib :=
  { lib_ok with event_add := -1 }

end HelloWorld

/-! ## event2/buffer.h: the evbuffer byte-buffer chain -/

/-- Modelled from the spec: one segment of a byte-buffer chain (`struct evbuffer_chain`
is defined in buffer.c, which is not among the sources). A segment has a capacity, a
start-offset and a used-length; `bytes` are the used bytes, so the used-length is
`bytes.length`. -/
structure evbuffer_chain where
  capacity : Nat
  start_offset : Nat
  bytes : List Nat
deriving DecidableEq, Repr

/-- Modelled from the spec: `struct evbuffer` (opaque in buffer.h, defined in buffer.c,
which is not among the sources): an ordered sequence of zero or more byte segments,
read at the chain head and appended to at the chain tail, which can be frozen at the
front and at the back (`evbuffer_freeze`). -/
structure evbuffer where
  chains : List evbuffer_chain
  freeze_start : Bool
  freeze_end : Bool
deriving DecidableEq, Repr

/-- Modelled from the spec: `evbuffer_new` (buffer.c is not among the sources): a new
buffer has no segment and is not frozen. -/
def evbuffer_new : evbuffer :=
  { chains := [], freeze_start := false, freeze_end := false }

/-- The bytes a sequence of segments holds, in order. -/
def chains_bytes : List evbuffer_chain → List Nat
  | [] => []
  | c :: cs => c.bytes ++ chains_bytes cs

/-- The logical content of an evbuffer: the used bytes of its segments, head first. -/
def evbuffer.contents (buf : evbuffer) : List Nat :=
  chains_bytes buf.chains

/-- The sum of the used-lengths of a sequence of segments. -/
def chains_length : List evbuffer_chain → Nat
  | [] => 0
  | c :: cs => c.bytes.length + chains_length cs

/-- Modelled from the spec: `evbuffer_get_length` (buffer.c is not among the sources):
the total number of bytes stored, the sum of the segment lengths. -/
def evbuffer_get_length (buf : evbuffer) : Nat :=
  chains_length buf.chains

/-- The free capacity left at the end of a segment. -/
def evbuffer_chain.free_space (c : evbuffer_chain) : Nat :=
  c.capacity - (c.start_offset + c.bytes.length)

/-- Append bytes at the chain tail: in place when the tail segment has enough free
capacity, in a newly allocated segment otherwise. -/
def chains_append : List evbuffer_chain → List Nat → List evbuffer_chain
  | [], d => [{ capacity := d.length, start_offset := 0, bytes := d }]
  | [c], d =>
    if d.length ≤ c.free_space then [{ c with bytes := c.bytes ++ d }]
    else [c, { capacity := d.length, start_offset := 0, bytes := d }]
  | c :: c2 :: cs, d => c :: chains_append (c2 :: cs) d

/-- Modelled from the spec: `evbuffer_add(buf, data, datlen)` (buffer.c is not among the
sources): appends the `datlen` bytes at `data` to the end of the buffer, allocating a
new segment only when the tail segment has insufficient free capacity; a buffer frozen
at the back rejects the append. Returns 0 on success, -1 on failure, and the buffer. -/
def evbuffer_add (buf : evbuffer) (data : List Nat) (datlen : Nat) : Int × evbuffer :=
  if buf.freeze_end then (-1, buf)
  else if datlen = 0 then (0, buf)
  else (0, { buf with chains := chains_append buf.chains (data.take datlen) })

/-- Advance the head cursor by `n` bytes: fully consumed segments are released, a
partly consumed segment has its start-offset advanced. -/
def chains_drain : List evbuffer_chain → Nat → List evbuffer_chain
  | [], _ => []
  | c :: cs, n =>
    if c.bytes.length ≤ n then chains_drain cs (n - c.bytes.length)
    else { c with start_offset := c.start_offset + n, bytes := c.bytes.drop n } :: cs

/-- Modelled from the spec: `evbuffer_drain(buf, len)` (buffer.c is not among the
sources): removes `len` bytes from the beginning of the buffer (all of them when it
holds fewer); a buffer frozen at the front rejects the drain. Returns 0 on success,
-1 on failure, and the buffer. -/
def evbuffer_drain (buf : evbuffer) (len : Nat) : Int × evbuffer :=
  if buf.freeze_start then (-1, buf)
  else (0, { buf with chains := chains_drain buf.chains len })

/-- The first `n` bytes held by a sequence of segments (all of them when it holds
fewer), read segment by segment. -/
def chains_copyout : List evbuffer_chain → Nat → List Nat
  | [], _ => []
  | c :: cs, n =>
    if n ≤ c.bytes.length then c.bytes.take n
    else c.bytes ++ chains_copyout cs (n - c.bytes.length)

/-- Modelled from the spec: `evbuffer_copyout(buf, data_out, datlen)` (buffer.c is not
among the sources): a non-destructive read of the first `datlen` bytes, or of as many
as are available; buffer.h: "@return the number of bytes read, or -1 if we can't drain
the buffer", which is the case of a buffer frozen at the front. Returns the count and
the bytes stored at `data_out`. -/
def evbuffer_copyout (buf : evbuffer) (datlen : Nat) : Int × List Nat :=
  if buf.freeze_start then (-1, [])
  else
    let out := chains_copyout buf.chains datlen
    ((out.length : Int), out)

/-- The conversion of a C integer to `int` (32 bits, two's complement). -/
def to_int (n : Int) : Int :=
  (n + 2 ^ 31) % 2 ^ 32 - 2 ^ 31

/-- Modelled from the spec: `evbuffer_remove(buf, data, datlen)` (buffer.c is not among
the sources): reads data from the buffer as `evbuffer_copyout` does and drains the bytes
read; when more bytes are requested than are available, only the available ones are
extracted. Returns the number of bytes read as an `int`, or -1 when the buffer cannot
be drained, the bytes stored at `data`, and the buffer. -/
def evbuffer_remove (buf : evbuffer) (datlen : Nat) : Int × List Nat × evbuffer :=
  let r := evbuffer_copyout buf datlen
  if r.1 > 0 then
    let d := evbuffer_drain buf r.1.toNat
    if d.1 < 0 then (to_int (-1), r.2, d.2) else (to_int r.1, r.2, d.2)
  else (to_int r.1, r.2, buf)

/-- Modelled from the spec: `evbuffer_add_buffer(outbuf, inbuf)` (buffer.c is not among
the sources): moves all data of `inbuf` to the end of `outbuf` by splicing its segments,
without copying; it appends to `outbuf` and drains `inbuf`, so it is rejected when
`outbuf` is frozen at the back or `inbuf` at the front. Returns 0 on success, -1 on
failure, `outbuf` and `inbuf`. -/
def evbuffer_add_buffer (outbuf inbuf : evbuffer) : Int × evbuffer × evbuffer :=
  if outbuf.freeze_end || inbuf.freeze_start then (-1, outbuf, inbuf)
  else (0, { outbuf with chains := outbuf.chains ++ inbuf.chains },
           { inbuf with chains := [] })

/-- Scan for the needle `what` in `bytes`, trying each offset in turn from `pos` on;
-1 when no offset matches. -/
def search_bytes (what : List Nat) : List Nat → Nat → Int
  | [], pos => if what = [] then (pos : Int) else -1
  | b :: bs, pos =>
    if what.isPrefixOf (b :: bs) then (pos : Int) else search_bytes what bs (pos + 1)

/-- Modelled from the spec: `evbuffer_search(buffer, what, len, start)` (buffer.c is not
among the sources): the `pos` field of the result, the offset of the first occurrence
of the `len` bytes at `what` in the buffer at or after `start` (from the beginning when
`start` is `NULL`), or -1 when the string is not found. The buffer is not changed. -/
def evbuffer_search (buffer : evbuffer) (what : List Nat) (len : Nat)
    (start : Option Nat) : Int :=
  match start with
  | none => search_bytes (what.take len) buffer.contents 0
  | some s =>
    if s ≤ evbuffer_get_length buffer then
      search_bytes (what.take len) (buffer.contents.drop s) s
    else -1

/-- The needle `what` occurs in the buffer at offset `p`: the bytes of the buffer from
offset `p` on start with `what`. -/
def evbuffer.occurs_at (buf : evbuffer) (what : List Nat) (p : Nat) : Prop :=
  p + what.length ≤ evbuffer_get_length buf ∧ what <+: buf.contents.drop p

/-- An unfrozen buffer holding `"abcdef"` in one segment. -/
def buf_abcdef : evbuffer :=
  (evbuffer_add evbuffer_new (ascii "abcdef") 6).2

/-- An unfrozen buffer holding `"XYZ"` in one segment. -/
def buf_XYZ : evbuffer :=
  (evbuffer_add evbuffer_new (ascii "XYZ") 3).2

/-- The buffer `buf_XYZ` after `evbuffer_freeze(buf, 0)`: frozen at the back. -/
def buf_XYZ_frozen_back : evbuffer :=
  { buf_XYZ with freeze_end := true }

/-- An empty buffer after `evbuffer_freeze(buf, 0)`: frozen at the back. -/
def buf_empty_frozen_back : evbuffer :=
  { evbuffer_new with freeze_end := true }

/-- An empty buffer after `evbuffer_freeze(buf, 1)`: frozen at the front. -/
def buf_empty_frozen_front : evbuffer :=
  { evbuffer_new with freeze_start := true }

/-- The buffer `buf_abcdef` after `evbuffer_freeze(buf, 1)`: frozen at the front. -/
def buf_abcdef_frozen_front : evbuffer :=
  { buf_abcdef with freeze_start := true }

/-! ## event2/event.h and event2/bufferevent.h: flag sets -/

def EV_ET : Nat := 0x20
def EV_FINALIZE : Nat := 0x40
def EV_CLOSED : Nat := 0x80

/-- The eight event flags of event.h, `EV_TIMEOUT` to `EV_CLOSED`. -/
def EV_flags : List Nat :=
  [EV_TIMEOUT, EV_READ, EV_WRITE, EV_SIGNAL, EV_PERSIST, EV_ET, EV_FINALIZE, EV_CLOSED]

/-- The six bufferevent event codes of bufferevent.h. -/
def BEV_EVENT_codes : List Nat :=
  [BEV_EVENT_READING, BEV_EVENT_WRITING, BEV_EVENT_EOF, BEV_EVENT_ERROR,
   BEV_EVENT_TIMEOUT, BEV_EVENT_CONNECTED]

/-- The two direction codes of a bufferevent event mask. -/
def BEV_EVENT_directions : List Nat := [BEV_EVENT_READING, BEV_EVENT_WRITING]

/-- The four condition codes of a bufferevent event mask. -/
def BEV_EVENT_conditions : List Nat :=
  [BEV_EVENT_EOF, BEV_EVENT_ERROR, BEV_EVENT_TIMEOUT, BEV_EVENT_CONNECTED]

/-- The C expression `f1 | f2 | ... | fn` for the flags of a list (0 for no flag). -/
def or_all : List Nat → Nat
  | [] => 0
  | f :: fs => f ||| or_all fs

def BEV_OPT_THREADSAFE : Nat := 1 <<< 1
def BEV_OPT_DEFER_CALLBACKS : Nat := 1 <<< 2
def BEV_OPT_UNLOCK_CALLBACKS : Nat := 1 <<< 3

/-- The four flags of `enum bufferevent_options`. -/
def bufferevent_options : List Nat :=
  [BEV_OPT_CLOSE_ON_FREE, BEV_OPT_THREADSAFE, BEV_OPT_DEFER_CALLBACKS,
   BEV_OPT_UNLOCK_CALLBACKS]

def BEV_TRIG_IGNORE_WATERMARKS : Nat := 1 <<< 16
def BEV_TRIG_DEFER_CALLBACKS : Nat := BEV_OPT_DEFER_CALLBACKS

/-! ## event2/event.h: the evtimer and evsignal aliases -/

/-- A call of one of the event functions that the evtimer and evsignal macros of event.h
expand to, with its arguments; the types of the base, event, callback, callback
argument and timeval pointers are left open. -/
inductive event_call (Base Ev Cb Arg Tv : Type) where
  | event_new (b : Base) (fd : Int) (events : Nat) (cb : Cb) (arg : Arg)
  | event_assign (ev : Ev) (b : Base) (fd : Int) (events : Nat) (cb : Cb) (arg : Arg)
  | event_add (ev : Ev) (tv : Tv)
  | event_del (ev : Ev)
  | event_pending (ev : Ev) (events : Nat) (tv : Tv)
deriving DecidableEq, Repr

section aliases

variable {Base Ev Cb Arg Tv : Type}

/-- event.h: `#define evtimer_assign(ev, b, cb, arg) event_assign((ev), (b), -1, 0, (cb), (arg))`. -/
def evtimer_assign (ev : Ev) (b : Base) (cb : Cb) (arg : Arg) : event_call Base Ev Cb Arg Tv :=
  .event_assign ev b (-1) 0 cb arg

/-- event.h: `#define evtimer_new(b, cb, arg) event_new((b), -1, 0, (cb), (arg))`. -/
def evtimer_new (b : Base) (cb : Cb) (arg : Arg) : event_call Base Ev Cb Arg Tv :=
  .event_new b (-1) 0 cb arg

/-- event.h: `#define evtimer_add(ev, tv) event_add((ev), (tv))`. -/
def evtimer_add (ev : Ev) (tv : Tv) : event_call Base Ev Cb Arg Tv :=
  .event_add ev tv

/-- event.h: `#define evtimer_del(ev) event_del(ev)`. -/
def evtimer_del (ev : Ev) : event_call Base Ev Cb Arg Tv :=
  .event_del ev

/-- event.h: `#define evtimer_pending(ev, tv) event_pending((ev), EV_TIMEOUT, (tv))`. -/
def evtimer_pending (ev : Ev) (tv : Tv) : event_call Base Ev Cb Arg Tv :=
  .event_pending ev EV_TIMEOUT tv

/-- event.h: `#define evsignal_assign(ev, b, x, cb, arg)
event_assign((ev), (b), (x), EV_SIGNAL|EV_PERSIST, cb, (arg))`. -/
def evsignal_assign (ev : Ev) (b : Base) (x : Int) (cb : Cb) (arg : Arg) :
    event_call Base Ev Cb Arg Tv :=
  .event_assign ev b x (EV_SIGNAL ||| EV_PERSIST) cb arg

/-- event.h: `#define evsignal_new(b, x, cb, arg)
event_new((b), (x), EV_SIGNAL|EV_PERSIST, (cb), (arg))`. -/
def evsignal_new (b : Base) (x : Int) (cb : Cb) (arg : Arg) : event_call Base Ev Cb Arg Tv :=
  .event_new b x (EV_SIGNAL ||| EV_PERSIST) cb arg

end aliases

/-- The call of hello-world.c that an `event_new` call of event.h is, when the base and
the callback argument are pointers and the callback is one of the program's. -/
def HelloWorld.Call.of_event_new :
    event_call HelloWorld.event_base HelloWorld.event HelloWorld.callback Nat (Option timeval)
      → Option HelloWorld.Call
  | .event_new b fd events cb arg => some (.event_new b fd events cb arg)
  | _ => none

/-! ## event2/util.h: fallback limits for integer types -/

/-- The C conversion to an unsigned integer type of `w` bits. -/
def cast_unsigned (w : Nat) (x : Int) : Int :=
  x % 2 ^ w

/-- The C conversion to a signed integer type of `w` bits (two's complement). -/
def cast_signed (w : Nat) (x : Int) : Int :=
  (x + 2 ^ (w - 1)) % 2 ^ w - 2 ^ (w - 1)

/-- The C expression `x << n` in an unsigned type of `w` bits. -/
def shl_unsigned (w : Nat) (x : Int) (n : Nat) : Int :=
  cast_unsigned w (x * 2 ^ n)

/-- The C expression `x << n` in a signed type of `w` bits, for `x >= 0`. -/
def shl_signed (w : Nat) (x : Int) (n : Nat) : Int :=
  cast_signed w (x * 2 ^ n)

/-- The C expression `x | y` on non-negative integers. -/
def bit_or (x y : Int) : Int :=
  ((x.toNat ||| y.toNat : Nat) : Int)

/-- util.h: `#define EV_UINT64_MAX ((((ev_uint64_t)0xffffffffUL) << 32) | 0xffffffffUL)`. -/
def EV_UINT64_MAX : Int :=
  bit_or (shl_unsigned 64 (cast_unsigned 64 0xffffffff) 32) 0xffffffff

/-- util.h: `#define EV_INT64_MAX ((((ev_int64_t) 0x7fffffffL) << 32) | 0xffffffffL)`. -/
def EV_INT64_MAX : Int :=
  bit_or (shl_signed 64 (cast_signed 64 0x7fffffff) 32) 0xffffffff

/-- util.h: `#define EV_INT64_MIN ((-EV_INT64_MAX) - 1)`. -/
def EV_INT64_MIN : Int := (-EV_INT64_MAX) - 1

/-- util.h: `#define EV_UINT32_MAX ((ev_uint32_t)0xffffffffUL)`. -/
def EV_UINT32_MAX : Int := cast_unsigned 32 0xffffffff

/-- util.h: `#define EV_INT32_MAX ((ev_int32_t) 0x7fffffffL)`. -/
def EV_INT32_MAX : Int := cast_signed 32 0x7fffffff

/-- util.h: `#define EV_INT32_MIN ((-EV_INT32_MAX) - 1)`. -/
def EV_INT32_MIN : Int := (-EV_INT32_MAX) - 1

/-- util.h: `#define EV_UINT16_MAX ((ev_uint16_t)0xffffUL)`. -/
def EV_UINT16_MAX : Int := cast_unsigned 16 0xffff

/-- util.h: `#define EV_INT16_MAX ((ev_int16_t) 0x7fffL)`. -/
def EV_INT16_MAX : Int := cast_signed 16 0x7fff

/-- util.h: `#define EV_INT16_MIN ((-EV_INT16_MAX) - 1)`. -/
def EV_INT16_MIN : Int := (-EV_INT16_MAX) - 1

/-- util.h: `#define EV_UINT8_MAX 255`. -/
def EV_UINT8_MAX : Int := 255

/-- util.h: `#define EV_INT8_MAX 127`. -/
def EV_INT8_MAX : Int := 127

/-- util.h: `#define EV_INT8_MIN ((-EV_INT8_MAX) - 1)`. -/
def EV_INT8_MIN : Int := (-EV_INT8_MAX) - 1

/-! ## event2/event.h: events, priorities and timeouts -/

/-- Modelled from the spec: the event record, `struct event` (declared in event.h; its
fields are in event_struct.h and its operations in event.c, neither of which is among
the sources): its key, its flag set, a reference to its callback, its priority level,
whether it is pending, the timeout it was added with and the deadline of that timeout. -/
structure event where
  ev_fd : Int
  ev_events : Nat
  ev_callback : Nat
  ev_pri : Nat
  pending : Bool
  timeout : Option timeval
  deadline : Option timeval
deriving DecidableEq, Repr

/-- Modelled from the spec: the part of `struct event_base` (event.c is not among the
sources) that orders callbacks: an array of active queues indexed by priority, queue 0
being the most urgent. -/
structure event_base where
  activequeues : List (List event)
deriving DecidableEq, Repr

/-- Modelled from the spec: `event_new(base, fd, events, cb, arg)` (event.c is not among
the sources): a new event is not pending, has no timeout, and has the middle priority
of its base. -/
def event_new (base : event_base) (fd : Int) (events : Nat) (cb : Nat) : event :=
  { ev_fd := fd, ev_events := events, ev_callback := cb,
    ev_pri := base.activequeues.length / 2,
    pending := false, timeout := none, deadline := none }

/-- Modelled from the spec: `event_add(ev, timeout)` called at time `now` (event.c is not
among the sources): the event becomes pending; with a timeout `t` its deadline is
`now + t`. -/
def event_add (ev : event) (tv : Option timeval) (now : timeval) : event :=
  match tv with
  | none => { ev with pending := true }
  | some t => { ev with pending := true, timeout := some t,
                        deadline := some (evutil_timeradd now t) }

/-- Modelled from the spec: what becoming active at time `now` does to the registration
of an event (event.c is not among the sources). event.h: a non-persistent event becomes
non-pending as soon as it is triggered; a persistent event remains pending, and when it
has a timeout, the timeout is reset, so that it next elapses at `now + t`. -/
def event_activated (ev : event) (now : timeval) : event :=
  if ev.ev_events &&& EV_PERSIST ≠ 0 then
    match ev.timeout with
    | some t => { ev with deadline := some (evutil_timeradd now t) }
    | none => ev
  else { ev with pending := false, deadline := none }

/-- Modelled from the spec: the timer step of the dispatch loop at time `now` (event.c is
not among the sources): a pending event whose deadline is not after `now` has expired
and is activated because of its timeout; any other event is left as it is. -/
def timeout_process (ev : event) (now : timeval) : event :=
  match ev.deadline with
  | some d =>
    if ev.pending && evutil_timercmp d now cmp_op.le then event_activated ev now else ev
  | none => ev

/-- Insert an event at the tail of the active queue of index `pri`; an index that is not
one of the queues gets no event. -/
def queue_insert_active : List (List event) → Nat → event → List (List event)
  | [], _, _ => []
  | q :: qs, 0, ev => (q ++ [ev]) :: qs
  | q :: qs, pri + 1, ev => q :: queue_insert_active qs pri ev

/-- Modelled from the spec: `event_active(ev, res, ncalls)` as far as the queues go
(event.c is not among the sources): the event enters the active queue of its priority,
behind the events already there. -/
def event_active (base : event_base) (ev : event) : event_base :=
  { base with activequeues := queue_insert_active base.activequeues ev.ev_pri ev }

/-- The number of active events in the queues. -/
def active_count : List (List event) → Nat
  | [] => 0
  | q :: qs => q.length + active_count qs

/-- The events of the queues, queue by queue from queue 0 on. -/
def queues_flatten : List (List event) → List event
  | [] => []
  | q :: qs => q ++ queues_flatten qs

/-- Every event in the queue of index `k` has priority `b + k`. -/
def queues_indexed_from : Nat → List (List event) → Prop
  | _, [] => True
  | b, q :: qs => (∀ e ∈ q, e.ev_pri = b) ∧ queues_indexed_from (b + 1) qs

/-- Pop the front of the most urgent non-empty active queue: events of lower priority
do not run while any higher-priority active event remains. -/
def pop_active : List (List event) → Option (event × List (List event))
  | [] => none
  | [] :: qs =>
    match pop_active qs with
    | none => none
    | some (e, qs1) => some (e, [] :: qs1)
  | (e :: q) :: qs => some (e, q :: qs)

/-- Run callbacks, popping the next active event at most `fuel` times; the result is the
events whose callbacks were invoked, in order. -/
def run_active : Nat → List (List event) → List event
  | 0, _ => []
  | fuel + 1, qs =>
    match pop_active qs with
    | none => []
    | some (e, qs1) => e :: run_active fuel qs1

/-- Modelled from the spec: the callback step of one iteration of the dispatch loop
(event.c is not among the sources), with no callback budget configured and callbacks
that leave the queues alone: the active events are popped in strict priority order
until none remains. The result is the events whose callbacks were invoked, in order. -/
def event_process_active (base : event_base) : List event :=
  run_active (active_count base.activequeues) base.activequeues

/-- The callbacks invoked by an iteration of the dispatch loop in which the events
`acts` become active, in this order, on a base with no active event. -/
def iteration_callbacks (base : event_base) (acts : List event) : List event :=
  event_process_active (acts.foldl event_active base)

/-- A base with two priorities and no active event. -/
def base_two_priorities : event_base :=
  { activequeues := [[], []] }

/-- An event of priority 0 on `base_two_priorities`. -/
def ev_prio0 : event :=
  { event_new base_two_priorities 4 EV_READ 100 with ev_pri := 0 }

/-- An event of priority 1 on `base_two_priorities`. -/
def ev_prio1 : event :=
  event_new base_two_priorities 5 EV_READ 101

/-! ## event2/bufferevent.h: token-bucket rate limiting -/

/-- Modelled from the spec: the token-bucket configuration `struct ev_token_bucket_cfg`
(opaque in bufferevent.h, defined in bufferevent_ratelim.c, which is not among the
sources): rates and bursts in bytes per tick, and the tick length. -/
structure ev_token_bucket_cfg where
  read_rate : Nat
  read_burst : Nat
  write_rate : Nat
  write_burst : Nat
  tick_len : timeval
deriving DecidableEq, Repr

/-- Modelled from the spec: the bucket state of a rate-limited bufferevent
(bufferevent_ratelim.c is not among the sources): the read and write token counts, which
are `ev_ssize_t` and can be negative, and the tick of the last refill. -/
structure ev_token_bucket where
  read_tokens : Int
  write_tokens : Int
  last_refill : Nat
deriving DecidableEq, Repr

/-- An operation on the bucket of a rate-limited bufferevent: the refill at the
beginning of a tick, an I/O operation that read or wrote `n` bytes, or a call of
`bufferevent_decrement_read_limit(bev, decr)` or
`bufferevent_decrement_write_limit(bev, decr)`. -/
inductive bucket_op where
  | tick_refill
  | io_read (n : Nat)
  | io_write (n : Nat)
  | bufferevent_decrement_read_limit (decr : Int)
  | bufferevent_decrement_write_limit (decr : Int)
deriving DecidableEq, Repr

/-- Whether the operation is a manual decrement with a negative value, which
bufferevent.h documents as the way to refill the bucket manually. -/
def bucket_op.is_manual_refill : bucket_op → Bool
  | .bufferevent_decrement_read_limit decr => decide (decr < 0)
  | .bufferevent_decrement_write_limit decr => decide (decr < 0)
  | _ => false

/-- Modelled from the spec: the effect of an operation on the bucket
(bufferevent_ratelim.c is not among the sources). The per-tick refill adds `rate`
tokens, clamped to `burst`; an I/O operation consumes the bytes it moved; the manual
decrement subtracts `decr` from the bucket, without waiting for a tick, and `decr` can be
negative. -/
def bucket_apply (cfg : ev_token_bucket_cfg) (b : ev_token_bucket) :
    bucket_op → ev_token_bucket
  | .tick_refill =>
    { read_tokens := min (b.read_tokens + cfg.read_rate) cfg.read_burst,
      write_tokens := min (b.write_tokens + cfg.write_rate) cfg.write_burst,
      last_refill := b.last_refill + 1 }
  | .io_read n => { b with read_tokens := b.read_tokens - n }
  | .io_write n => { b with write_tokens := b.write_tokens - n }
  | .bufferevent_decrement_read_limit decr => { b with read_tokens := b.read_tokens - decr }
  | .bufferevent_decrement_write_limit decr => { b with write_tokens := b.write_tokens - decr }

/-- Modelled from the spec: `bufferevent_get_read_limit` (bufferevent_ratelim.c is not
among the sources): the current read bucket size. -/
def bufferevent_get_read_limit (b : ev_token_bucket) : Int := b.read_tokens

/-- Modelled from the spec: `bufferevent_get_write_limit` (bufferevent_ratelim.c is not
among the sources): the current write bucket size. -/
def bufferevent_get_write_limit (b : ev_token_bucket) : Int := b.write_tokens

/-- The bucket after a sequence of operations. -/
def bucket_run (cfg : ev_token_bucket_cfg) (b : ev_token_bucket) (ops : List bucket_op) :
    ev_token_bucket :=
  ops.foldl (bucket_apply cfg) b

/-- A configuration with rate 1000 and burst 1000 in both directions and a tick of 1 s. -/
def cfg_1000 : ev_token_bucket_cfg :=
  { read_rate := 1000, read_burst := 1000, write_rate := 1000, write_burst := 1000,
    tick_len := { tv_sec := 1, tv_usec := 0 } }

/-- A full bucket for `cfg_1000`. -/
def bucket_full_1000 : ev_token_bucket :=
  { read_tokens := 1000, write_tokens := 1000, last_refill := 0 }

/-! ## event2/buffer.h: reading lines -/

/-- The line-ending styles of buffer.h, `enum evbuffer_eol_style`. -/
inductive evbuffer_eol_style where
  | EVBUFFER_EOL_ANY
  | EVBUFFER_EOL_CRLF
  | EVBUFFER_EOL_CRLF_STRICT
  | EVBUFFER_EOL_LF
  | EVBUFFER_EOL_NUL
deriving DecidableEq, Repr

/-- Whether a byte is a CR (13) or an LF (10). -/
def is_cr_or_lf (b : Nat) : Bool :=
  b == 13 || b == 10

/-- The byte strings that are an EOL of a style, as the comments of
`enum evbuffer_eol_style` in buffer.h define them: any sequence of CR and LF characters;
an LF, optionally preceded by a CR; a CR followed by an LF; an LF; a NUL character. -/
def evbuffer_eol_style.is_eol : evbuffer_eol_style → List Nat → Prop
  | .EVBUFFER_EOL_ANY, e => e ≠ [] ∧ ∀ b ∈ e, is_cr_or_lf b = true
  | .EVBUFFER_EOL_CRLF, e => e = [10] ∨ e = [13, 10]
  | .EVBUFFER_EOL_CRLF_STRICT, e => e = [13, 10]
  | .EVBUFFER_EOL_LF, e => e = [10]
  | .EVBUFFER_EOL_NUL, e => e = [0]

/-- An EOL of the style starts at offset `q` of the byte string. -/
def evbuffer_eol_style.eol_at (style : evbuffer_eol_style) (bytes : List Nat) (q : Nat) :
    Prop :=
  ∃ e, style.is_eol e ∧ e <+: bytes.drop q

/-- The offset of the first CR or LF of `bytes`, counted from `pos`. -/
def find_eol_char : List Nat → Nat → Option Nat
  | [], _ => none
  | b :: bs, pos => if is_cr_or_lf b then some pos else find_eol_char bs (pos + 1)

/-- The number of leading bytes that are CR or LF. -/
def span_cr_lf : List Nat → Nat
  | [] => 0
  | b :: bs => if is_cr_or_lf b then span_cr_lf bs + 1 else 0

/-- Modelled from the spec: `evbuffer_search_eol(buffer, NULL, eol_len_out, eol_style)`
(buffer.c is not among the sources): the `pos` field of the result, the offset of the
first EOL of the style in the buffer, or -1 when there is none, and the length of that
EOL as stored at `eol_len_out`. With `EVBUFFER_EOL_ANY` the EOL is the whole run of CR
and LF characters that starts at the first of them; with `EVBUFFER_EOL_CRLF` it is the
first LF together with a CR right before it, if there is one. -/
def evbuffer_search_eol (buffer : evbuffer) (eol_style : evbuffer_eol_style) : Int × Nat :=
  match eol_style with
  | .EVBUFFER_EOL_ANY =>
    match find_eol_char buffer.contents 0 with
    | none => (-1, 0)
    | some p => ((p : Int), span_cr_lf (buffer.contents.drop p))
  | .EVBUFFER_EOL_CRLF =>
    let p := evbuffer_search buffer [10] 1 none
    if p < 0 then (-1, 0)
    else if 0 < p ∧ buffer.contents[p.toNat - 1]? = some 13 then (p - 1, 2)
    else (p, 1)
  | .EVBUFFER_EOL_CRLF_STRICT => (evbuffer_search buffer [13, 10] 2 none, 2)
  | .EVBUFFER_EOL_LF => (evbuffer_search buffer [10] 1 none, 1)
  | .EVBUFFER_EOL_NUL => (evbuffer_search buffer [0] 1 none, 1)

/-- Modelled from the spec: `evbuffer_readln(buffer, n_read_out, eol_style)` (buffer.c is
not among the sources): reads a line terminated by an EOL of the style: the bytes before
the first EOL are removed from the buffer and returned (their number is what is stored
at `n_read_out`), and the EOL is drained without being returned. The result is `NULL`
(`none`), and the buffer unchanged, when the buffer holds no EOL of the style or is
frozen at the front. Returns the line and the buffer. -/
def evbuffer_readln (buffer : evbuffer) (eol_style : evbuffer_eol_style) :
    Option (List Nat) × evbuffer :=
  if buffer.freeze_start then (none, buffer)
  else
    let it := evbuffer_search_eol buffer eol_style
    if it.1 < 0 then (none, buffer)
    else
      let line := evbuffer_remove buffer it.1.toNat
      let rest := evbuffer_drain line.2.2 it.2
      (some line.2.1, rest.2)

/-- An unfrozen buffer holding `"a\r\nb\nc\r\n"`. -/
def buf_lines : evbuffer :=
  (evbuffer_add evbuffer_new (ascii "a\r\nb\nc\r\n") 9).2

/-! ## event2/listener.h: listener flags; hello-world.c: kinds of calls -/

def LEV_OPT_LEAVE_SOCKETS_BLOCKING : Nat := 1 <<< 0
def LEV_OPT_CLOSE_ON_EXEC : Nat := 1 <<< 2
def LEV_OPT_THREADSAFE : Nat := 1 <<< 4
def LEV_OPT_DISABLED : Nat := 1 <<< 5
def LEV_OPT_DEFERRED_ACCEPT : Nat := 1 <<< 6
def LEV_OPT_REUSEABLE_PORT : Nat := 1 <<< 7
def LEV_OPT_BIND_IPV6ONLY : Nat := 1 <<< 8

/-- The nine `LEV_OPT_*` flags of listener.h. -/
def LEV_OPT_flags : List Nat :=
  [LEV_OPT_LEAVE_SOCKETS_BLOCKING, LEV_OPT_CLOSE_ON_FREE, LEV_OPT_CLOSE_ON_EXEC,
   LEV_OPT_REUSEABLE, LEV_OPT_THREADSAFE, LEV_OPT_DISABLED, LEV_OPT_DEFERRED_ACCEPT,
   LEV_OPT_REUSEABLE_PORT, LEV_OPT_BIND_IPV6ONLY]

/-- Whether a call is `evconnlistener_new_bind`. -/
def HelloWorld.Call.is_evconnlistener_new_bind : HelloWorld.Call → Bool
  | .evconnlistener_new_bind _ _ _ _ _ _ _ => true
  | _ => false

/-- Whether a call is `event_base_dispatch`. -/
def HelloWorld.Call.is_event_base_dispatch : HelloWorld.Call → Bool
  | .event_base_dispatch _ => true
  | _ => false

/-- Whether a call frees a listener, an event or an event base
(`evconnlistener_free`, `event_free`, `event_base_free`). -/
def HelloWorld.Call.is_teardown : HelloWorld.Call → Bool
  | .evconnlistener_free _ => true
  | .event_free _ => true
  | .event_base_free _ => true
  | _ => false

/-! ## event2/event.h: the number of priorities -/

/-- The constant of event.h: `#define EVENT_MAX_PRIORITIES 256`, the largest number of
priorities that Libevent can support. -/
def EVENT_MAX_PRIORITIES : Nat := 256

/-- Modelled from the spec: `event_base_new` as far as priorities go (event.c is not
among the sources): a new base has one priority and no active event. -/
def event_base_new : event_base :=
  { activequeues := [[]] }

/-- Modelled from the spec: `event_base_get_npriorities` (event.c is not among the
sources): the number of different event priorities, one active queue each. -/
def event_base_get_npriorities (base : event_base) : Nat :=
  base.activequeues.length

/-- Modelled from the spec: `event_base_priority_init(base, npriorities)` (event.c is not
among the sources): sets the number of different event priorities, which is at least 1
and at most `EVENT_MAX_PRIORITIES`, the largest number that can be supported. Returns 0
if successful or -1 if an error occurred, and the base. -/
def event_base_priority_init (base : event_base) (npriorities : Int) : Int × event_base :=
  if npriorities < 1 ∨ npriorities > EVENT_MAX_PRIORITIES then (-1, base)
  else (0, { base with activequeues := List.replicate npriorities.toNat [] })

/-- Modelled from the spec: `event_priority_set(ev, priority)` for an event of `base`
(event.c is not among the sources): events have priority 0..N-1, N being the number of
priorities of the base; any other priority is an error. Returns 0 if successful or -1 if
an error occurred, and the event. -/
def event_priority_set (base : event_base) (ev : event) (priority : Int) : Int × event :=
  if priority < 0 ∨ priority ≥ event_base_get_npriorities base then (-1, ev)
  else (0, { ev with ev_pri := priority.toNat })

/-! ## Theorems: struct timeval macros -/

/-- C5: for each of the five operators and all timevals `a`, `b` whose `tv_usec` lies in
`[0, 1000000)`, `evutil_timercmp(a, b, cmp)` is true exactly when
`a.tv_sec * 1000000 + a.tv_usec  cmp  b.tv_sec * 1000000 + b.tv_usec`. -/
theorem evutil_timercmp_decides_order (a b : timeval) (cmp : cmp_op)
    (ha : 0 ≤ a.tv_usec ∧ a.tv_usec < 1000000)
    (hb : 0 ≤ b.tv_usec ∧ b.tv_usec < 1000000) :
    evutil_timercmp a b cmp = true ↔
      cmp.holds (a.tv_sec * 1000000 + a.tv_usec) (b.tv_sec * 1000000 + b.tv_usec) = true := by
  obtain ⟨ha0, ha1⟩ := ha
  obtain ⟨hb0, hb1⟩ := hb
  unfold evutil_timercmp
  by_cases hs : a.tv_sec = b.tv_sec
  · rw [if_pos hs]
    cases cmp <;> simp only [cmp_op.holds, decide_eq_true_eq] <;> constructor <;> intro h <;> omega
  · rw [if_neg hs]
    cases cmp <;> simp only [cmp_op.holds, decide_eq_true_eq] <;> constructor <;> intro h <;> omega

/-- C5 at concrete instants: 1.999999 s is before 2.000000 s under `<` and `<=`, and
not under `==`, `>=` or `>`. -/
theorem evutil_timercmp_decides_order_witness :
    (evutil_timercmp ⟨1, 999999⟩ ⟨2, 0⟩ .lt = true ↔
      cmp_op.holds cmp_op.lt (1 * 1000000 + 999999) (2 * 1000000 + 0) = true) ∧
    evutil_timercmp ⟨1, 999999⟩ ⟨2, 0⟩ .lt = true ∧
    evutil_timercmp ⟨1, 999999⟩ ⟨2, 0⟩ .le = true ∧
    evutil_timercmp ⟨1, 999999⟩ ⟨2, 0⟩ .eq = false ∧
    evutil_timercmp ⟨1, 999999⟩ ⟨2, 0⟩ .ge = false ∧
    evutil_timercmp ⟨1, 999999⟩ ⟨2, 0⟩ .gt = false :=
  ⟨evutil_timercmp_decides_order ⟨1, 999999⟩ ⟨2, 0⟩ .lt (by decide) (by decide),
   by decide, by decide, by decide, by decide, by decide⟩

/-- C6: for timevals `a`, `b` whose `tv_usec` lies in `[0, 1000000)`, the fallback
`evutil_timeradd(a, b, v)` leaves `0 <= v.tv_usec < 1000000` and
`v.tv_sec * 1000000 + v.tv_usec` equal to the sum of the two instants in microseconds. -/
theorem evutil_timeradd_normalised_sum (a b : timeval)
    (ha : 0 ≤ a.tv_usec ∧ a.tv_usec < 1000000)
    (hb : 0 ≤ b.tv_usec ∧ b.tv_usec < 1000000) :
    0 ≤ (evutil_timeradd a b).tv_usec ∧ (evutil_timeradd a b).tv_usec < 1000000 ∧
    (evutil_timeradd a b).tv_sec * 1000000 + (evutil_timeradd a b).tv_usec
      = (a.tv_sec * 1000000 + a.tv_usec) + (b.tv_sec * 1000000 + b.tv_usec) := by
  obtain ⟨ha0, ha1⟩ := ha
  obtain ⟨hb0, hb1⟩ := hb
  unfold evutil_timeradd
  by_cases hc : a.tv_usec + b.tv_usec ≥ 1000000
  · simp only [hc, if_true]
    refine ⟨?_, ?_, ?_⟩ <;> omega
  · simp only [hc, if_false]
    refine ⟨?_, ?_, ?_⟩ <;> omega

/-- C6 at a concrete input with a carry: 1.700000 s + 2.600000 s = 4.300000 s. -/
theorem evutil_timeradd_normalised_sum_witness :
    evutil_timeradd ⟨1, 700000⟩ ⟨2, 600000⟩ = ⟨4, 300000⟩ ∧
    (0 ≤ (evutil_timeradd ⟨1, 700000⟩ ⟨2, 600000⟩).tv_usec ∧
     (evutil_timeradd ⟨1, 700000⟩ ⟨2, 600000⟩).tv_usec < 1000000 ∧
     (evutil_timeradd ⟨1, 700000⟩ ⟨2, 600000⟩).tv_sec * 1000000
        + (evutil_timeradd ⟨1, 700000⟩ ⟨2, 600000⟩).tv_usec
      = ((1 : Int) * 1000000 + 700000) + (2 * 1000000 + 600000)) :=
  ⟨by decide, evutil_timeradd_normalised_sum ⟨1, 700000⟩ ⟨2, 600000⟩ (by decide) (by decide)⟩

/-- C7: for timevals `a`, `b` whose `tv_usec` lies in `[0, 1000000)`, the fallback
`evutil_timersub(a, b, v)` leaves `0 <= v.tv_usec < 1000000` and
`v.tv_sec * 1000000 + v.tv_usec` equal to the difference of the two instants in
microseconds; when `a` is earlier than `b`, `v.tv_sec` is negative and `v.tv_usec` is
still non-negative. -/
theorem evutil_timersub_normalised_difference (a b : timeval)
    (ha : 0 ≤ a.tv_usec ∧ a.tv_usec < 1000000)
    (hb : 0 ≤ b.tv_usec ∧ b.tv_usec < 1000000) :
    0 ≤ (evutil_timersub a b).tv_usec ∧ (evutil_timersub a b).tv_usec < 1000000 ∧
    (evutil_timersub a b).tv_sec * 1000000 + (evutil_timersub a b).tv_usec
      = (a.tv_sec * 1000000 + a.tv_usec) - (b.tv_sec * 1000000 + b.tv_usec) ∧
    (a.tv_sec * 1000000 + a.tv_usec < b.tv_sec * 1000000 + b.tv_usec →
      (evutil_timersub a b).tv_sec < 0 ∧ 0 ≤ (evutil_timersub a b).tv_usec) := by
  obtain ⟨ha0, ha1⟩ := ha
  obtain ⟨hb0, hb1⟩ := hb
  unfold evutil_timersub
  by_cases hc : a.tv_usec - b.tv_usec < 0
  · simp only [hc, if_true]
    refine ⟨?_, ?_, ?_, fun h => ⟨?_, ?_⟩⟩ <;> omega
  · simp only [hc, if_false]
    refine ⟨?_, ?_, ?_, fun h => ⟨?_, ?_⟩⟩ <;> omega

/-- C7 at a concrete input where `a` is earlier than `b`: 0.000000 s - 0.000001 s
leaves `tv_sec = -1`, `tv_usec = 999999`. -/
theorem evutil_timersub_normalised_difference_witness :
    evutil_timersub ⟨0, 0⟩ ⟨0, 1⟩ = ⟨-1, 999999⟩ ∧
    (0 ≤ (evutil_timersub ⟨0, 0⟩ ⟨0, 1⟩).tv_usec ∧
     (evutil_timersub ⟨0, 0⟩ ⟨0, 1⟩).tv_usec < 1000000 ∧
     (evutil_timersub ⟨0, 0⟩ ⟨0, 1⟩).tv_sec * 1000000 + (evutil_timersub ⟨0, 0⟩ ⟨0, 1⟩).tv_usec
      = ((0 : Int) * 1000000 + 0) - (0 * 1000000 + 1) ∧
     ((0 : Int) * 1000000 + 0 < 0 * 1000000 + 1 →
      (evutil_timersub ⟨0, 0⟩ ⟨0, 1⟩).tv_sec < 0 ∧ 0 ≤ (evutil_timersub ⟨0, 0⟩ ⟨0, 1⟩).tv_usec)) :=
  ⟨by decide, evutil_timersub_normalised_difference ⟨0, 0⟩ ⟨0, 1⟩ (by decide) (by decide)⟩

/-! ## Theorems: hello-world.c -/

namespace HelloWorld

/-- C1: `conn_writecb(bev, _)` asks for the length of the output buffer of `bev`, calls
`bufferevent_free(bev)` (once, and frees nothing else) if and only if that length is 0,
and makes no state-changing call when the length is not 0; `listener_cb` creates the
bufferevent with `BEV_OPT_CLOSE_ON_FREE`. -/
theorem conn_writecb_frees_iff_flushed (lib : Lib) (bev : bufferevent) (user_data : Nat) :
    (conn_writecb lib bev user_data).take 2
      = [Call.bufferevent_get_output bev, Call.evbuffer_get_length lib.bufferevent_get_output] ∧
    (Call.bufferevent_free bev ∈ conn_writecb lib bev user_data
      ↔ lib.evbuffer_get_length = 0) ∧
    (lib.evbuffer_get_length = 0 →
      (conn_writecb lib bev user_data).filter Call.is_bufferevent_free
        = [Call.bufferevent_free bev]) ∧
    (lib.evbuffer_get_length ≠ 0 →
      ∀ c ∈ conn_writecb lib bev user_data, c.state_changing = false) ∧
    (∀ (lib1 : Lib) (listener : evconnlistener) (fd : Int) (sa : Nat) (socklen : Int)
        (base : Nat),
      (listener_cb lib1 listener fd sa socklen base).head?
        = some (Call.bufferevent_socket_new base fd BEV_OPT_CLOSE_ON_FREE)) := by
  refine ⟨?_, ?_, ?_, ?_, ?_⟩
  · unfold conn_writecb
    split <;> rfl
  · unfold conn_writecb
    by_cases h : lib.evbuffer_get_length = 0
    · simp [h]
    · simp [h]
  · intro h
    simp [conn_writecb, h, Call.is_bufferevent_free]
  · intro h c hc
    simp only [conn_writecb, if_neg h, List.mem_cons, List.mem_singleton, List.not_mem_nil,
      or_false] at hc
    rcases hc with rfl | rfl <;> rfl
  · intro lib1 listener fd sa socklen base
    unfold listener_cb
    cases lib1.bufferevent_socket_new <;> rfl

/-- C1 at two concrete runs: with an empty output buffer the trace of `conn_writecb` ends
in `bufferevent_free(7)`; with 14 bytes pending it is the two queries only. -/
theorem conn_writecb_frees_iff_flushed_witness :
    conn_writecb lib_ok 7 0
      = [Call.bufferevent_get_output 7, Call.evbuffer_get_length 8,
         Call.printf "flushed answer\n", Call.bufferevent_free 7] ∧
    (conn_writecb lib_ok 7 0).filter Call.is_bufferevent_free = [Call.bufferevent_free 7] ∧
    conn_writecb lib_pending 7 0
      = [Call.bufferevent_get_output 7, Call.evbuffer_get_length 8] ∧
    (∀ c ∈ conn_writecb lib_pending 7 0, c.state_changing = false) :=
  ⟨by decide, (conn_writecb_frees_iff_flushed lib_ok 7 0).2.2.1 rfl, by decide,
   (conn_writecb_frees_iff_flushed lib_pending 7 0).2.2.2.1 (by decide)⟩

/-- C2: when `bufferevent_socket_new` returns a bufferevent, `listener_cb` makes exactly
one `bufferevent_write` call, with `MESSAGE` and length `strlen(MESSAGE) = 14`; the bytes
queued are the 14 bytes of `"Hello, World!\n"`, none of them NUL, while
`sizeof(MESSAGE) = 15` and the byte left out is the terminating NUL. -/
theorem listener_cb_queues_message_once (lib : Lib) (listener : evconnlistener) (fd : Int)
    (sa : Nat) (socklen : Int) (user_data : Nat) (bev : bufferevent)
    (h : lib.bufferevent_socket_new = some bev) :
    (listener_cb lib listener fd sa socklen user_data).filter Call.is_bufferevent_write
      = [Call.bufferevent_write bev MESSAGE 14] ∧
    (Call.bufferevent_write bev MESSAGE 14).bytes_queued = ascii "Hello, World!\n" ∧
    (ascii "Hello, World!\n").length = 14 ∧
    (0 : Nat) ∉ (Call.bufferevent_write bev MESSAGE 14).bytes_queued ∧
    strlen MESSAGE = 14 ∧ sizeof MESSAGE = 15 ∧ MESSAGE.drop 14 = [0] := by
  have hlen : strlen MESSAGE = 14 := by decide
  refine ⟨?_, ?_, ?_, ?_, hlen, ?_, ?_⟩
  · simp [listener_cb, h, hlen, Call.is_bufferevent_write]
  · show MESSAGE.take 14 = ascii "Hello, World!\n"
    decide
  · decide
  · show (0 : Nat) ∉ MESSAGE.take 14
    decide
  · decide
  · decide

/-- C2 at a concrete run: the accepted socket 5 gets bufferevent 7. -/
theorem listener_cb_queues_message_once_witness :
    (listener_cb lib_ok 2 5 0 16 1).filter Call.is_bufferevent_write
      = [Call.bufferevent_write 7 MESSAGE 14] ∧
    (Call.bufferevent_write 7 MESSAGE 14).bytes_queued = ascii "Hello, World!\n" ∧
    (ascii "Hello, World!\n").length = 14 ∧
    (0 : Nat) ∉ (Call.bufferevent_write 7 MESSAGE 14).bytes_queued ∧
    strlen MESSAGE = 14 ∧ sizeof MESSAGE = 15 ∧ MESSAGE.drop 14 = [0] :=
  listener_cb_queues_message_once lib_ok 2 5 0 16 1 7 rfl

/-- C3: for every signal number and events mask, the only loop-control call of
`signal_cb(sig, events, base)` is `event_base_loopexit(base, {2, 0})` on the base passed
as `user_data`; it never calls `event_base_loopbreak`. -/
theorem signal_cb_loopexit_two_seconds (sig : Int) (events : Nat) (user_data : Nat) :
    (signal_cb sig events user_data).filter Call.is_loop_control
      = [Call.event_base_loopexit user_data (some { tv_sec := 2, tv_usec := 0 })] ∧
    (∀ b : event_base, Call.event_base_loopbreak b ∉ signal_cb sig events user_data) := by
  constructor
  · simp [signal_cb, Call.is_loop_control]
  · intro b
    simp [signal_cb]

/-- C3 at a concrete call: SIGINT (2) with `EV_SIGNAL` on base 1. -/
theorem signal_cb_loopexit_two_seconds_witness :
    signal_cb 2 EV_SIGNAL 1
      = [Call.printf "Caught an interrupt signal; exiting cleanly in two seconds.\n",
         Call.event_base_loopexit 1 (some { tv_sec := 2, tv_usec := 0 })] ∧
    (signal_cb 2 EV_SIGNAL 1).filter Call.is_loop_control
      = [Call.event_base_loopexit 1 (some { tv_sec := 2, tv_usec := 0 })] :=
  ⟨by decide, (signal_cb_loopexit_two_seconds 2 EV_SIGNAL 1).1⟩

/-- C4: `main` returns 1 if and only if `event_base_new` returns NULL,
`evconnlistener_new_bind` returns NULL, `evsignal_new` returns NULL or `event_add`
returns a negative value; otherwise it calls `event_base_dispatch` and returns 0,
whatever `event_base_dispatch` returns. -/
theorem main_returns_one_iff_setup_fails (lib : Lib) (argc : Int) (argv : List String) :
    ((main lib argc argv).2 = 1 ↔
      (lib.event_base_new = none ∨ lib.evconnlistener_new_bind = none ∨
        lib.event_new = none ∨ lib.event_add < 0)) ∧
    ((main lib argc argv).2 = 0 ↔
      ¬ (lib.event_base_new = none ∨ lib.evconnlistener_new_bind = none ∨
        lib.event_new = none ∨ lib.event_add < 0)) ∧
    (∀ base : event_base, lib.event_base_new = some base →
      (Call.event_base_dispatch base ∈ (main lib argc argv).1 ↔ (main lib argc argv).2 = 0)) := by
  unfold main
  cases h1 : lib.event_base_new with
  | none => simp
  | some base =>
    cases h2 : lib.evconnlistener_new_bind with
    | none => simp
    | some listener =>
      cases h3 : lib.event_new with
      | none => simp
      | some ev =>
        by_cases h4 : lib.event_add < 0
        · simp [h4]
        · simp [h4]

/-- C4 at three concrete runs: with every set-up call succeeding `main` dispatches and
returns 0 although `event_base_dispatch` returned 1; with `event_add` failing it
returns 1 without dispatching. -/
theorem main_returns_one_iff_setup_fails_witness :
    (main lib_ok 1 ["hello-world"]).2 = 0 ∧
    Call.event_base_dispatch 1 ∈ (main lib_ok 1 ["hello-world"]).1 ∧
    (main lib_add_fails 1 ["hello-world"]).2 = 1 ∧
    Call.event_base_dispatch 1 ∉ (main lib_add_fails 1 ["hello-world"]).1 :=
  have hok := main_returns_one_iff_setup_fails lib_ok 1 ["hello-world"]
  have hbad := main_returns_one_iff_setup_fails lib_add_fails 1 ["hello-world"]
  have h0 : (main lib_ok 1 ["hello-world"]).2 = 0 := hok.2.1.mpr (by decide)
  have h1 : (main lib_add_fails 1 ["hello-world"]).2 = 1 :=
    hbad.1.mpr (Or.inr (Or.inr (Or.inr (by decide))))
  ⟨h0, (hok.2.2 1 rfl).mpr h0, h1,
   fun hmem => absurd ((hbad.2.2 1 rfl).mp hmem) (by rw [h1]; decide)⟩

end HelloWorld

/-! ## Theorems: evbuffer -/

theorem chains_length_eq (cs : List evbuffer_chain) :
    chains_length cs = (chains_bytes cs).length := by
  induction cs with
  | nil => rfl
  | cons c cs ih => simp [chains_length, chains_bytes, ih]

theorem evbuffer_get_length_eq (buf : evbuffer) :
    evbuffer_get_length buf = buf.contents.length :=
  chains_length_eq buf.chains

theorem chains_bytes_concat (cs ds : List evbuffer_chain) :
    chains_bytes (cs ++ ds) = chains_bytes cs ++ chains_bytes ds := by
  induction cs with
  | nil => rfl
  | cons c cs ih => simp [chains_bytes, ih]

theorem chains_bytes_chains_append (cs : List evbuffer_chain) (d : List Nat) :
    chains_bytes (chains_append cs d) = chains_bytes cs ++ d := by
  induction cs with
  | nil => simp [chains_append, chains_bytes]
  | cons c cs ih =>
    cases cs with
    | nil =>
      unfold chains_append
      split <;> simp [chains_bytes]
    | cons c2 cs =>
      simp only [chains_append, chains_bytes, List.append_assoc] at ih ⊢
      rw [ih]

theorem chains_copyout_eq (cs : List evbuffer_chain) (n : Nat) :
    chains_copyout cs n = (chains_bytes cs).take n := by
  induction cs generalizing n with
  | nil => simp [chains_copyout, chains_bytes]
  | cons c cs ih =>
    unfold chains_copyout
    simp only [chains_bytes]
    split
    · next h => rw [List.take_append_of_le_length h]
    · next h =>
      have hle : c.bytes.length ≤ n := by omega
      rw [ih, List.take_append_eq_append_take, List.take_of_length_le hle]

theorem chains_bytes_drain (cs : List evbuffer_chain) (n : Nat) :
    chains_bytes (chains_drain cs n) = (chains_bytes cs).drop n := by
  induction cs generalizing n with
  | nil => simp [chains_drain, chains_bytes]
  | cons c cs ih =>
    unfold chains_drain
    split
    · next h =>
      rw [ih]
      simp only [chains_bytes]
      rw [List.drop_append_eq_append_drop, List.drop_eq_nil_of_le h, List.nil_append]
    · next h =>
      simp only [chains_bytes]
      rw [List.drop_append_of_le_length (by omega)]

theorem to_int_of_small (n : Int) (h0 : 0 ≤ n) (h1 : n < 2147483648) : to_int n = n := by
  unfold to_int
  omega

/-- What `evbuffer_copyout` yields on a buffer that is not frozen at the front. -/
theorem evbuffer_copyout_unfrozen (buf : evbuffer) (n : Nat) (h : buf.freeze_start = false) :
    evbuffer_copyout buf n = (((buf.contents.take n).length : Int), buf.contents.take n) := by
  simp [evbuffer_copyout, h, chains_copyout_eq, evbuffer.contents]

/-- What `evbuffer_drain` yields on a buffer that is not frozen at the front. -/
theorem evbuffer_drain_unfrozen (buf : evbuffer) (n : Nat) (h : buf.freeze_start = false) :
    (evbuffer_drain buf n).1 = 0 ∧
    (evbuffer_drain buf n).2.contents = buf.contents.drop n ∧
    (evbuffer_drain buf n).2.freeze_start = false := by
  simp [evbuffer_drain, h, chains_bytes_drain, evbuffer.contents]

/-- What `evbuffer_remove` yields on a buffer that is not frozen at the front. -/
theorem evbuffer_remove_unfrozen (buf : evbuffer) (n : Nat) (h : buf.freeze_start = false) :
    (evbuffer_remove buf n).1 = to_int ((buf.contents.take n).length : Int) ∧
    (evbuffer_remove buf n).2.1 = buf.contents.take n ∧
    (evbuffer_remove buf n).2.2.contents = buf.contents.drop (buf.contents.take n).length := by
  unfold evbuffer_remove
  rw [evbuffer_copyout_unfrozen buf n h]
  have hd := evbuffer_drain_unfrozen buf (buf.contents.take n).length h
  by_cases hpos : ((buf.contents.take n).length : Int) > 0
  · simp only [hpos, if_true, Int.toNat_ofNat]
    have h1 : ¬ (evbuffer_drain buf (buf.contents.take n).length).1 < 0 := by
      rw [hd.1]; decide
    simp only [h1, if_false]
    exact ⟨trivial, trivial, hd.2.1⟩
  · simp only [hpos, if_false]
    refine ⟨trivial, trivial, ?_⟩
    have hz : (buf.contents.take n).length = 0 := by omega
    rw [hz, List.drop_zero]

/-- The scan `search_bytes` either fails, and then no offset matches, or returns the
least matching offset. -/
theorem search_bytes_spec (w bs : List Nat) (pos : Nat) :
    (search_bytes w bs pos = -1 ∧ ∀ j, j ≤ bs.length → ¬ w <+: bs.drop j) ∨
    (∃ k : Nat, search_bytes w bs pos = ((pos + k : Nat) : Int) ∧ k ≤ bs.length ∧
      w <+: bs.drop k ∧ ∀ j, j < k → ¬ w <+: bs.drop j) := by
  induction bs generalizing pos with
  | nil =>
    unfold search_bytes
    by_cases hw : w = []
    · right
      exact ⟨0, by simp [hw], le_refl _, by simp [hw], fun j hj => absurd hj (Nat.not_lt_zero j)⟩
    · left
      refine ⟨by simp [hw], ?_⟩
      intro j _
      simpa using hw
  | cons b bs ih =>
    unfold search_bytes
    by_cases hp : w.isPrefixOf (b :: bs) = true
    · right
      refine ⟨0, by simp [hp], Nat.zero_le _, ?_, fun j hj => absurd hj (Nat.not_lt_zero j)⟩
      exact List.isPrefixOf_iff_prefix.mp hp
    · rw [if_neg hp]
      have hnp : ¬ w <+: b :: bs := fun h => hp (List.isPrefixOf_iff_prefix.mpr h)
      rcases ih (pos + 1) with ⟨h1, h2⟩ | ⟨k, h1, h2, h3, h4⟩
      · left
        refine ⟨h1, ?_⟩
        intro j hj
        cases j with
        | zero => simpa using hnp
        | succ j =>
          have := h2 j (by simpa using hj)
          simpa using this
      · right
        refine ⟨k + 1, ?_, by simpa using h2, by simpa using h3, ?_⟩
        · rw [h1]
          push_cast
          ring
        · intro j hj
          cases j with
          | zero => simpa using hnp
          | succ j =>
            have := h4 j (by omega)
            simpa using this

/-- C8 (amended): for all evbuffers `D` and `S` with `D` not frozen at the back and `S`
not frozen at the front, `evbuffer_add_buffer(D, S)` succeeds, the length of `D`
afterwards is the sum of the two lengths before, `S` is left empty, and the content of
`D` afterwards is the content of `D` followed by the content of `S`. -/
theorem evbuffer_add_buffer_moves_all (D S : evbuffer)
    (hD : D.freeze_end = false) (hS : S.freeze_start = false) :
    (evbuffer_add_buffer D S).1 = 0 ∧
    evbuffer_get_length (evbuffer_add_buffer D S).2.1
      = evbuffer_get_length D + evbuffer_get_length S ∧
    evbuffer_get_length (evbuffer_add_buffer D S).2.2 = 0 ∧
    (evbuffer_add_buffer D S).2.1.contents = D.contents ++ S.contents ∧
    (evbuffer_add_buffer D S).2.2.contents = [] := by
  simp [evbuffer_add_buffer, hD, hS, evbuffer_get_length_eq, evbuffer.contents,
    chains_bytes_concat, chains_bytes]

/-- C8 at the scenario of the spec: moving B1 = "abcdef" into B2 = "XYZ" leaves B1 empty
and B2 holding the 9 bytes "XYZabcdef", as `evbuffer_copyout` reads them. -/
theorem evbuffer_add_buffer_moves_all_witness :
    ((evbuffer_add_buffer buf_XYZ buf_abcdef).1 = 0 ∧
     evbuffer_get_length (evbuffer_add_buffer buf_XYZ buf_abcdef).2.1
       = evbuffer_get_length buf_XYZ + evbuffer_get_length buf_abcdef ∧
     evbuffer_get_length (evbuffer_add_buffer buf_XYZ buf_abcdef).2.2 = 0 ∧
     (evbuffer_add_buffer buf_XYZ buf_abcdef).2.1.contents
       = buf_XYZ.contents ++ buf_abcdef.contents ∧
     (evbuffer_add_buffer buf_XYZ buf_abcdef).2.2.contents = []) ∧
    evbuffer_get_length (evbuffer_add_buffer buf_XYZ buf_abcdef).2.1 = 9 ∧
    evbuffer_copyout (evbuffer_add_buffer buf_XYZ buf_abcdef).2.1 9 = (9, ascii "XYZabcdef") :=
  ⟨evbuffer_add_buffer_moves_all buf_XYZ buf_abcdef rfl rfl, by decide, by decide⟩

/-- C8 as stated fails for a destination frozen at the back and for a source frozen at
the front: moving "abcdef" into "XYZ" is then rejected with -1, the source keeps its 6
bytes and the destination its 3 bytes. -/
theorem evbuffer_add_buffer_frozen_counterexample :
    ((evbuffer_add_buffer buf_XYZ_frozen_back buf_abcdef).1 = -1 ∧
     evbuffer_get_length (evbuffer_add_buffer buf_XYZ_frozen_back buf_abcdef).2.2 ≠ 0 ∧
     evbuffer_get_length (evbuffer_add_buffer buf_XYZ_frozen_back buf_abcdef).2.1
       ≠ evbuffer_get_length buf_XYZ_frozen_back + evbuffer_get_length buf_abcdef) ∧
    ((evbuffer_add_buffer buf_XYZ buf_abcdef_frozen_front).1 = -1 ∧
     evbuffer_get_length (evbuffer_add_buffer buf_XYZ buf_abcdef_frozen_front).2.2 ≠ 0 ∧
     evbuffer_get_length (evbuffer_add_buffer buf_XYZ buf_abcdef_frozen_front).2.1
       ≠ evbuffer_get_length buf_XYZ + evbuffer_get_length buf_abcdef_frozen_front) := by
  decide

/-- C9 (amended): for an empty evbuffer `B` that is frozen at neither end and every byte
string `data` of at most 1 MiB, `evbuffer_add(B, data, |data|)` succeeds and the
following `evbuffer_remove(B, out, |data|)` returns `|data|`, yields `out = data` and
leaves `B` empty; and for every evbuffer not frozen at the front, when more bytes are
requested than it holds, `evbuffer_remove` extracts exactly the bytes it holds, returns
their number (as an `int`) and leaves it empty. -/
theorem evbuffer_add_remove_roundtrip (B : evbuffer) (data : List Nat)
    (hempty : evbuffer_get_length B = 0)
    (hfront : B.freeze_start = false) (hback : B.freeze_end = false)
    (hlen : data.length ≤ 1048576) :
    (evbuffer_add B data data.length).1 = 0 ∧
    (evbuffer_remove (evbuffer_add B data data.length).2 data.length).1 = (data.length : Int) ∧
    (evbuffer_remove (evbuffer_add B data data.length).2 data.length).2.1 = data ∧
    evbuffer_get_length (evbuffer_remove (evbuffer_add B data data.length).2 data.length).2.2
      = 0 ∧
    (∀ (B1 : evbuffer) (datlen : Nat), B1.freeze_start = false →
      evbuffer_get_length B1 < datlen →
      (evbuffer_remove B1 datlen).1 = to_int (evbuffer_get_length B1 : Int) ∧
      (evbuffer_get_length B1 < 2147483648 →
        (evbuffer_remove B1 datlen).1 = (evbuffer_get_length B1 : Int)) ∧
      (evbuffer_remove B1 datlen).2.1 = B1.contents ∧
      evbuffer_get_length (evbuffer_remove B1 datlen).2.2 = 0) := by
  have hB : B.contents = [] := by
    rw [evbuffer_get_length_eq] at hempty
    exact List.eq_nil_of_length_eq_zero hempty
  have hadd : (evbuffer_add B data data.length).1 = 0 ∧
      (evbuffer_add B data data.length).2.contents = data ∧
      (evbuffer_add B data data.length).2.freeze_start = false := by
    unfold evbuffer_add
    rw [hback]
    by_cases h0 : data.length = 0
    · have hd : data = [] := List.eq_nil_of_length_eq_zero h0
      simp [hd, hB, hfront]
    · have h00 : ¬ (false = true) := by decide
      rw [if_neg h00, if_neg h0]
      refine ⟨rfl, ?_, hfront⟩
      show chains_bytes (chains_append B.chains (data.take data.length)) = data
      rw [chains_bytes_chains_append, List.take_length]
      have : chains_bytes B.chains = [] := hB
      rw [this, List.nil_append]
  obtain ⟨ha1, ha2, ha3⟩ := hadd
  have hrem := evbuffer_remove_unfrozen (evbuffer_add B data data.length).2 data.length ha3
  rw [ha2, List.take_length] at hrem
  obtain ⟨hr1, hr2, hr3⟩ := hrem
  refine ⟨ha1, ?_, hr2, ?_, ?_⟩
  · rw [hr1]
    exact to_int_of_small _ (by omega) (by omega)
  · rw [evbuffer_get_length_eq, hr3, List.drop_length]
    rfl
  · intro B1 datlen hB1 hlt
    rw [evbuffer_get_length_eq] at hlt
    have hrem1 := evbuffer_remove_unfrozen B1 datlen hB1
    rw [List.take_of_length_le (Nat.le_of_lt hlt)] at hrem1
    obtain ⟨h1, h2, h3⟩ := hrem1
    refine ⟨?_, ?_, h2, ?_⟩
    · rw [h1, evbuffer_get_length_eq]
    · intro hsmall
      rw [h1, evbuffer_get_length_eq]
      rw [evbuffer_get_length_eq] at hsmall
      exact to_int_of_small _ (by omega) (by omega)
    · rw [evbuffer_get_length_eq, h3, List.drop_length]
      rfl

/-- C9 at a concrete input: the three bytes 1, NUL, 2 added to a new buffer come back
unchanged, and asking "abcdef" for 100 bytes extracts its 6 bytes. -/
theorem evbuffer_add_remove_roundtrip_witness :
    (evbuffer_remove (evbuffer_add evbuffer_new [1, 0, 2] 3).2 3).1 = 3 ∧
    (evbuffer_remove (evbuffer_add evbuffer_new [1, 0, 2] 3).2 3).2.1 = [1, 0, 2] ∧
    evbuffer_get_length (evbuffer_remove (evbuffer_add evbuffer_new [1, 0, 2] 3).2 3).2.2 = 0 ∧
    (evbuffer_remove buf_abcdef 100).1 = 6 ∧
    (evbuffer_remove buf_abcdef 100).2.1 = ascii "abcdef" :=
  have h := evbuffer_add_remove_roundtrip evbuffer_new [1, 0, 2] rfl rfl rfl (by decide)
  have h2 := h.2.2.2.2 buf_abcdef 100 rfl (by decide)
  ⟨h.2.1, h.2.2.1, h.2.2.2.1, h2.2.1 (by decide), h2.2.2.1⟩

/-- C9 as stated fails for an empty evbuffer frozen at the back: `evbuffer_add` of one
byte is rejected with -1 and the following `evbuffer_remove` of one byte returns 0, not
1, and yields no byte. It also fails for an empty evbuffer frozen at the front: the
byte is added, but `evbuffer_remove` returns -1, yields no byte and leaves the byte in
the buffer. -/
theorem evbuffer_add_remove_frozen_counterexample :
    (evbuffer_get_length buf_empty_frozen_back = 0 ∧
     (evbuffer_add buf_empty_frozen_back [7] 1).1 = -1 ∧
     (evbuffer_remove (evbuffer_add buf_empty_frozen_back [7] 1).2 1).1 ≠ 1 ∧
     (evbuffer_remove (evbuffer_add buf_empty_frozen_back [7] 1).2 1).2.1 ≠ [7]) ∧
    (evbuffer_get_length buf_empty_frozen_front = 0 ∧
     (evbuffer_add buf_empty_frozen_front [7] 1).1 = 0 ∧
     (evbuffer_remove (evbuffer_add buf_empty_frozen_front [7] 1).2 1).1 = -1 ∧
     (evbuffer_remove (evbuffer_add buf_empty_frozen_front [7] 1).2 1).2.1 ≠ [7] ∧
     evbuffer_get_length
       (evbuffer_remove (evbuffer_add buf_empty_frozen_front [7] 1).2 1).2.2 ≠ 0) := by
  decide

/-- C10 (amended): for every evbuffer `B` and needle `N`, if
`evbuffer_search(B, N, |N|, NULL)` reports a position `p >= 0` then `N` occurs in `B` at
offset `p` and at no smaller offset, and, when `B` is not frozen at the front,
`evbuffer_drain(B, p)` succeeds and `evbuffer_copyout(B, out, |N|)` then returns `|N|`
with `out = N`; if `N` occurs nowhere in `B` the reported position is -1; the reported
position is always -1 or non-negative. -/
theorem evbuffer_search_first_occurrence (B : evbuffer) (N : List Nat) :
    (∀ p : Nat, evbuffer_search B N N.length none = (p : Int) →
      B.occurs_at N p ∧ (∀ q, q < p → ¬ B.occurs_at N q) ∧
      (B.freeze_start = false →
        (evbuffer_drain B p).1 = 0 ∧
        evbuffer_copyout (evbuffer_drain B p).2 N.length = ((N.length : Int), N))) ∧
    ((∀ p, ¬ B.occurs_at N p) → evbuffer_search B N N.length none = -1) ∧
    (evbuffer_search B N N.length none = -1 ∨
      ∃ p : Nat, evbuffer_search B N N.length none = (p : Int)) := by
  have hs : evbuffer_search B N N.length none = search_bytes N B.contents 0 := by
    simp [evbuffer_search, List.take_length]
  have hocc : ∀ k, k ≤ B.contents.length → N <+: B.contents.drop k → B.occurs_at N k := by
    intro k hk hpre
    refine ⟨?_, hpre⟩
    have h1 := hpre.length_le
    rw [List.length_drop] at h1
    rw [evbuffer_get_length_eq]
    omega
  rw [hs]
  rcases search_bytes_spec N B.contents 0 with ⟨h1, h2⟩ | ⟨k, h1, h2, h3, h4⟩
  · refine ⟨?_, fun _ => h1, Or.inl h1⟩
    intro p hp
    rw [h1] at hp
    omega
  · have h1k : search_bytes N B.contents 0 = (k : Int) := by
      rw [h1, Nat.zero_add]
    refine ⟨?_, ?_, Or.inr ⟨k, h1k⟩⟩
    · intro p hp
      have hpk : p = k := by
        rw [h1k] at hp
        omega
      subst hpk
      refine ⟨hocc p h2 h3, fun q hq hoc => h4 q hq hoc.2, ?_⟩
      intro hfr
      obtain ⟨hd1, hd2, hd3⟩ := evbuffer_drain_unfrozen B p hfr
      refine ⟨hd1, ?_⟩
      rw [evbuffer_copyout_unfrozen _ _ hd3, hd2, ← List.prefix_iff_eq_take.mp h3]
    · intro hno
      exact absurd (hocc k h2 h3) (hno k)

/-- C10 at a concrete input: "cd" is found in "abcdef" at offset 2, and after draining 2
bytes the buffer starts with "cd"; "ce" is not found. -/
theorem evbuffer_search_first_occurrence_witness :
    evbuffer_search buf_abcdef (ascii "cd") 2 none = 2 ∧
    buf_abcdef.occurs_at (ascii "cd") 2 ∧
    evbuffer_copyout (evbuffer_drain buf_abcdef 2).2 2 = (2, ascii "cd") ∧
    evbuffer_search buf_abcdef (ascii "ce") 2 none = -1 :=
  have h := (evbuffer_search_first_occurrence buf_abcdef (ascii "cd")).1 2 (by decide)
  ⟨by decide, h.1, (h.2.2 rfl).2, by decide⟩

/-- C10 as stated fails for a buffer frozen at the front: "b" is found in "abcdef" at
offset 1, but `evbuffer_drain(B, 1)` is rejected and `evbuffer_copyout` does not yield
"b". -/
theorem evbuffer_search_frozen_counterexample :
    evbuffer_search buf_abcdef_frozen_front (ascii "b") 1 none = 1 ∧
    (evbuffer_drain buf_abcdef_frozen_front 1).1 = -1 ∧
    (evbuffer_copyout (evbuffer_drain buf_abcdef_frozen_front 1).2 1).2 ≠ ascii "b" := by
  decide

/-! ## Theorems: flag sets of event.h and bufferevent.h -/

theorem lor_eq_zero_iff (a b : Nat) : a ||| b = 0 ↔ a = 0 ∧ b = 0 := by
  constructor
  · intro h
    have hbit : ∀ i, a.testBit i = false ∧ b.testBit i = false := by
      intro i
      have hi := congrArg (fun n => Nat.testBit n i) h
      simpa using hi
    exact ⟨Nat.zero_of_testBit_eq_false fun i => (hbit i).1,
      Nat.zero_of_testBit_eq_false fun i => (hbit i).2⟩
  · rintro ⟨rfl, rfl⟩
    rfl

/-- For flags of which any two share a bit only when they are equal, the OR of a list of
them has a flag set exactly when the flag is in the list. -/
theorem or_all_and_ne_zero_iff (codes : List Nat)
    (hpair : ∀ x ∈ codes, ∀ f ∈ codes, (x &&& f ≠ 0 ↔ x = f))
    (S : List Nat) (hS : ∀ x ∈ S, x ∈ codes) (f : Nat) (hf : f ∈ codes) :
    or_all S &&& f ≠ 0 ↔ f ∈ S := by
  induction S with
  | nil => simp [or_all]
  | cons x S ih =>
    have hx : x ∈ codes := hS x (List.mem_cons_self x S)
    have ih1 := ih (fun y hy => hS y (List.mem_cons_of_mem x hy))
    have hsplit : (x ||| or_all S) &&& f = (x &&& f) ||| (or_all S &&& f) := by
      rw [Nat.and_comm, Nat.and_or_distrib_left, Nat.and_comm f x, Nat.and_comm f (or_all S)]
    show (x ||| or_all S) &&& f ≠ 0 ↔ f ∈ x :: S
    rw [hsplit, Ne, lor_eq_zero_iff, not_and_or, List.mem_cons]
    constructor
    · rintro (h | h)
      · exact Or.inl ((hpair x hx f hf).mp h).symm
      · exact Or.inr (ih1.mp h)
    · rintro (h | h)
      · exact Or.inl ((hpair x hx f hf).mpr h.symm)
      · exact Or.inr (ih1.mpr h)

/-- C15: the six bufferevent event codes are pairwise-disjoint single bits, the direction
bits OR to 0x03 and the condition bits to 0xF0, which are disjoint; the OR of any
collection `S` of the codes has a code set if and only if the code is in `S`; and a mask
made of one direction and one condition gives back both. -/
theorem BEV_EVENT_codes_independent_bits :
    BEV_EVENT_codes.Pairwise (fun a b => a &&& b = 0) ∧
    (∀ f ∈ BEV_EVENT_codes, ∃ k : Nat, f = 2 ^ k) ∧
    or_all BEV_EVENT_directions = 0x03 ∧
    or_all BEV_EVENT_conditions = 0xF0 ∧
    or_all BEV_EVENT_directions &&& or_all BEV_EVENT_conditions = 0 ∧
    (∀ S : List Nat, (∀ x ∈ S, x ∈ BEV_EVENT_codes) →
      ∀ f ∈ BEV_EVENT_codes, (or_all S &&& f ≠ 0 ↔ f ∈ S)) ∧
    (∀ d ∈ BEV_EVENT_directions, ∀ c ∈ BEV_EVENT_conditions,
      (c ||| d) &&& 0x03 = d ∧ (c ||| d) &&& 0xF0 = c) := by
  refine ⟨by decide, ?_, by decide, by decide, by decide, ?_, by decide⟩
  · intro f hf
    simp only [BEV_EVENT_codes, List.mem_cons, List.mem_singleton, List.not_mem_nil,
      or_false] at hf
    rcases hf with rfl | rfl | rfl | rfl | rfl | rfl
    exacts [⟨0, rfl⟩, ⟨1, rfl⟩, ⟨4, rfl⟩, ⟨5, rfl⟩, ⟨6, rfl⟩, ⟨7, rfl⟩]
  · intro S hS f hf
    exact or_all_and_ne_zero_iff BEV_EVENT_codes (by decide) S hS f hf

/-- C15 at the masks of the claim: `TIMEOUT|READING` and `EOF|READING` each have exactly
their two codes set. -/
theorem BEV_EVENT_codes_independent_bits_witness :
    (∀ f ∈ BEV_EVENT_codes,
      (or_all [BEV_EVENT_TIMEOUT, BEV_EVENT_READING] &&& f ≠ 0
        ↔ f ∈ [BEV_EVENT_TIMEOUT, BEV_EVENT_READING])) ∧
    (∀ f ∈ BEV_EVENT_codes,
      (or_all [BEV_EVENT_EOF, BEV_EVENT_READING] &&& f ≠ 0
        ↔ f ∈ [BEV_EVENT_EOF, BEV_EVENT_READING])) ∧
    or_all [BEV_EVENT_TIMEOUT, BEV_EVENT_READING] = 0x41 ∧
    or_all [BEV_EVENT_EOF, BEV_EVENT_READING] = 0x11 :=
  ⟨BEV_EVENT_codes_independent_bits.2.2.2.2.2.1 [BEV_EVENT_TIMEOUT, BEV_EVENT_READING]
      (by decide),
   BEV_EVENT_codes_independent_bits.2.2.2.2.2.1 [BEV_EVENT_EOF, BEV_EVENT_READING]
      (by decide),
   by decide, by decide⟩

/-- C16: `BEV_TRIG_IGNORE_WATERMARKS` is bit 16 and shares no bit with any of the four
`bufferevent_options` flags, which are pairwise-disjoint single bits;
`BEV_TRIG_DEFER_CALLBACKS` equals `BEV_OPT_DEFER_CALLBACKS`; so a trigger option and a
bufferevent option share a bit only when both are the defer-callbacks flag. -/
theorem BEV_TRIG_options_disjoint_from_options :
    BEV_TRIG_IGNORE_WATERMARKS = 2 ^ 16 ∧
    (∀ o ∈ bufferevent_options, BEV_TRIG_IGNORE_WATERMARKS &&& o = 0) ∧
    bufferevent_options.Pairwise (fun a b => a &&& b = 0) ∧
    bufferevent_options = [2 ^ 0, 2 ^ 1, 2 ^ 2, 2 ^ 3] ∧
    BEV_TRIG_DEFER_CALLBACKS = BEV_OPT_DEFER_CALLBACKS ∧
    (∀ t ∈ [BEV_TRIG_IGNORE_WATERMARKS, BEV_TRIG_DEFER_CALLBACKS],
      ∀ o ∈ bufferevent_options,
        t &&& o ≠ 0 → t = BEV_TRIG_DEFER_CALLBACKS ∧ o = BEV_OPT_DEFER_CALLBACKS) := by
  refine ⟨by decide, by decide, by decide, by decide, rfl, by decide⟩

/-- C17: the eight event flags are the single bits 0x01 to 0x80, pairwise disjoint, and
OR to 0xFF; the OR of any collection `S` of the flags has a flag set if and only if the
flag is in `S`. -/
theorem EV_flags_independent_bits :
    EV_flags = (List.range 8).map (fun k => 2 ^ k) ∧
    EV_flags.Pairwise (fun a b => a &&& b = 0) ∧
    or_all EV_flags = 0xFF ∧
    (∀ S : List Nat, (∀ x ∈ S, x ∈ EV_flags) →
      ∀ f ∈ EV_flags, (or_all S &&& f ≠ 0 ↔ f ∈ S)) := by
  refine ⟨by decide, by decide, by decide, ?_⟩
  intro S hS f hf
  exact or_all_and_ne_zero_iff EV_flags (by decide) S hS f hf

/-- C17 at the mask `EV_SIGNAL|EV_PERSIST`: exactly those two flags are set in 0x18. -/
theorem EV_flags_independent_bits_witness :
    or_all [EV_SIGNAL, EV_PERSIST] = 0x18 ∧
    (∀ f ∈ EV_flags, (or_all [EV_SIGNAL, EV_PERSIST] &&& f ≠ 0 ↔ f ∈ [EV_SIGNAL, EV_PERSIST])) :=
  ⟨by decide, EV_flags_independent_bits.2.2.2 [EV_SIGNAL, EV_PERSIST] (by decide)⟩

/-! ## Theorems: fallback limits for integer types -/

/-- C20: the fallback integer-limit macros of util.h hold the two's-complement bounds of
their types. -/
theorem fallback_integer_limits :
    EV_UINT64_MAX = 2 ^ 64 - 1 ∧ EV_INT64_MAX = 2 ^ 63 - 1 ∧ EV_INT64_MIN = -2 ^ 63 ∧
    EV_UINT32_MAX = 2 ^ 32 - 1 ∧ EV_INT32_MAX = 2 ^ 31 - 1 ∧ EV_INT32_MIN = -2 ^ 31 ∧
    EV_UINT16_MAX = 2 ^ 16 - 1 ∧ EV_INT16_MAX = 2 ^ 15 - 1 ∧ EV_INT16_MIN = -2 ^ 15 ∧
    EV_UINT8_MAX = 255 ∧ EV_INT8_MAX = 127 ∧ EV_INT8_MIN = -128 := by
  refine ⟨?_, ?_, ?_, ?_, ?_, ?_, ?_, ?_, ?_, ?_, ?_, ?_⟩ <;> decide

/-! ## Theorems: priorities and timeouts of events -/

theorem pop_active_none (qs : List (List event)) (h : pop_active qs = none) :
    queues_flatten qs = [] ∧ active_count qs = 0 := by
  induction qs with
  | nil => exact ⟨rfl, rfl⟩
  | cons q qs ih =>
    cases q with
    | nil =>
      simp only [pop_active] at h
      cases hp : pop_active qs with
      | none =>
        obtain ⟨h1, h2⟩ := ih hp
        simp [queues_flatten, active_count, h1, h2]
      | some r =>
        rw [hp] at h
        cases h
    | cons e q => simp [pop_active] at h

theorem pop_active_some (qs : List (List event)) (e : event) (qs1 : List (List event))
    (h : pop_active qs = some (e, qs1)) :
    queues_flatten qs = e :: queues_flatten qs1 ∧ active_count qs = active_count qs1 + 1 := by
  induction qs generalizing qs1 with
  | nil => simp [pop_active] at h
  | cons q qs ih =>
    cases q with
    | nil =>
      simp only [pop_active] at h
      cases hp : pop_active qs with
      | none =>
        rw [hp] at h
        cases h
      | some r =>
        obtain ⟨e2, qs2⟩ := r
        rw [hp] at h
        simp only [Option.some.injEq, Prod.mk.injEq] at h
        obtain ⟨rfl, rfl⟩ := h
        obtain ⟨h1, h2⟩ := ih qs2 hp
        simp [queues_flatten, active_count, h1, h2]
    | cons e2 q =>
      simp only [pop_active, Option.some.injEq, Prod.mk.injEq] at h
      obtain ⟨rfl, rfl⟩ := h
      simp [queues_flatten, active_count]
      omega

/-- With fuel for every active event, the callbacks run are all the active events, queue
by queue from queue 0 on. -/
theorem run_active_eq_flatten (fuel : Nat) (qs : List (List event))
    (h : active_count qs ≤ fuel) : run_active fuel qs = queues_flatten qs := by
  induction fuel generalizing qs with
  | zero =>
    have hz : active_count qs = 0 := by omega
    cases hp : pop_active qs with
    | none => simp [run_active, (pop_active_none qs hp).1]
    | some r =>
      obtain ⟨e, qs1⟩ := r
      have := (pop_active_some qs e qs1 hp).2
      omega
  | succ fuel ih =>
    cases hp : pop_active qs with
    | none => simp [run_active, hp, (pop_active_none qs hp).1]
    | some r =>
      obtain ⟨e, qs1⟩ := r
      obtain ⟨h1, h2⟩ := pop_active_some qs e qs1 hp
      simp only [run_active, hp]
      rw [h1, ih qs1 (by omega)]

theorem event_process_active_eq (base : event_base) :
    event_process_active base = queues_flatten base.activequeues :=
  run_active_eq_flatten _ _ (le_refl _)

theorem queues_indexed_of_empty (b : Nat) (qs : List (List event))
    (h : active_count qs = 0) : queues_indexed_from b qs := by
  induction qs generalizing b with
  | nil => trivial
  | cons q qs ih =>
    simp only [active_count] at h
    have hq : q = [] := List.eq_nil_of_length_eq_zero (by omega)
    subst hq
    exact ⟨fun e he => absurd he (List.not_mem_nil e), ih (b + 1) (by omega)⟩

theorem queues_indexed_insert (b p : Nat) (qs : List (List event)) (ev : event)
    (h : queues_indexed_from b qs) (hp : ev.ev_pri = b + p) :
    queues_indexed_from b (queue_insert_active qs p ev) := by
  induction qs generalizing b p with
  | nil => trivial
  | cons q qs ih =>
    obtain ⟨h1, h2⟩ := h
    cases p with
    | zero =>
      refine ⟨?_, h2⟩
      intro e he
      rcases List.mem_append.mp he with he | he
      · exact h1 e he
      · rw [List.mem_singleton.mp he]
        simpa using hp
    | succ p => exact ⟨h1, ih (b + 1) p h2 (by omega)⟩

theorem queues_flatten_sorted (b : Nat) (qs : List (List event))
    (h : queues_indexed_from b qs) :
    (∀ e ∈ queues_flatten qs, b ≤ e.ev_pri) ∧
    (queues_flatten qs).Pairwise (fun x y => x.ev_pri ≤ y.ev_pri) := by
  induction qs generalizing b with
  | nil => exact ⟨fun e he => absurd he (List.not_mem_nil e), List.Pairwise.nil⟩
  | cons q qs ih =>
    obtain ⟨h1, h2⟩ := h
    obtain ⟨ih1, ih2⟩ := ih (b + 1) h2
    constructor
    · intro e he
      rcases List.mem_append.mp he with he | he
      · exact le_of_eq (h1 e he).symm
      · exact Nat.le_of_succ_le (ih1 e he)
    · show (q ++ queues_flatten qs).Pairwise _
      rw [List.pairwise_append]
      refine ⟨?_, ih2, ?_⟩
      · exact List.pairwise_of_forall_mem_list fun x hx y hy =>
          le_of_eq ((h1 x hx).trans (h1 y hy).symm)
      · intro x hx y hy
        have := ih1 y hy
        have := h1 x hx
        omega

theorem queue_insert_active_length (qs : List (List event)) (p : Nat) (ev : event) :
    (queue_insert_active qs p ev).length = qs.length := by
  induction qs generalizing p with
  | nil => rfl
  | cons q qs ih =>
    cases p with
    | zero => rfl
    | succ p => simp [queue_insert_active, ih]

theorem mem_flatten_insert (qs : List (List event)) (p : Nat) (ev e : event) :
    e ∈ queues_flatten (queue_insert_active qs p ev)
      ↔ e ∈ queues_flatten qs ∨ (e = ev ∧ p < qs.length) := by
  induction qs generalizing p with
  | nil => simp [queue_insert_active, queues_flatten]
  | cons q qs ih =>
    cases p with
    | zero =>
      simp only [queue_insert_active, queues_flatten, List.mem_append, List.mem_singleton,
        List.length_cons]
      constructor
      · rintro ((h | h) | h)
        · exact Or.inl (Or.inl h)
        · exact Or.inr ⟨h, Nat.succ_pos _⟩
        · exact Or.inl (Or.inr h)
      · rintro ((h | h) | ⟨h, _⟩)
        · exact Or.inl (Or.inl h)
        · exact Or.inr h
        · exact Or.inl (Or.inr h)
    | succ p =>
      simp only [queue_insert_active, queues_flatten, List.mem_append, ih, List.length_cons]
      constructor
      · rintro (h | h | ⟨h, hp⟩)
        · exact Or.inl (Or.inl h)
        · exact Or.inl (Or.inr h)
        · exact Or.inr ⟨h, by omega⟩
      · rintro ((h | h) | ⟨h, hp⟩)
        · exact Or.inl h
        · exact Or.inr (Or.inl h)
        · exact Or.inr (Or.inr ⟨h, by omega⟩)

/-- After the events `acts` are activated on a base whose queues are indexed by priority,
the queues are still so indexed, there are as many queues, and the active events are the
old ones and those of `acts` whose priority is one of the base's. -/
theorem foldl_event_active_spec (acts : List event) (base : event_base)
    (h : queues_indexed_from 0 base.activequeues) :
    queues_indexed_from 0 (acts.foldl event_active base).activequeues ∧
    (acts.foldl event_active base).activequeues.length = base.activequeues.length ∧
    ∀ e, e ∈ queues_flatten (acts.foldl event_active base).activequeues ↔
      (e ∈ queues_flatten base.activequeues ∨
        (e ∈ acts ∧ e.ev_pri < base.activequeues.length)) := by
  induction acts generalizing base with
  | nil => simpa using h
  | cons a acts ih =>
    have h1 : queues_indexed_from 0 (event_active base a).activequeues :=
      queues_indexed_insert 0 a.ev_pri base.activequeues a h (by omega)
    have hlen : (event_active base a).activequeues.length = base.activequeues.length :=
      queue_insert_active_length _ _ _
    obtain ⟨i1, i2, i3⟩ := ih (event_active base a) h1
    refine ⟨i1, i2.trans hlen, ?_⟩
    intro e
    rw [List.foldl_cons, i3 e, hlen]
    have hm := mem_flatten_insert base.activequeues a.ev_pri a e
    simp only [event_active] at hm ⊢
    rw [hm, List.mem_cons]
    constructor
    · rintro ((h | ⟨rfl, hp⟩) | ⟨h, hp⟩)
      · exact Or.inl h
      · exact Or.inr ⟨Or.inl rfl, hp⟩
      · exact Or.inr ⟨Or.inr h, hp⟩
    · rintro (h | ⟨rfl | h, hp⟩)
      · exact Or.inl (Or.inl h)
      · exact Or.inl (Or.inr ⟨rfl, hp⟩)
      · exact Or.inr ⟨h, hp⟩

/-- C12: when events `A` of priority `i` and `B` of priority `j`, `i < j`, both become
active in the same iteration of the dispatch loop (on a base with no active event, `j`
being one of its priorities), both callbacks are invoked and every invocation of the
callback of `B` comes after an invocation of the callback of `A`. -/
theorem higher_priority_callback_runs_first (base : event_base) (acts : List event)
    (A B : event) (hempty : active_count base.activequeues = 0)
    (hA : A ∈ acts) (hB : B ∈ acts)
    (hlt : A.ev_pri < B.ev_pri) (hpri : B.ev_pri < base.activequeues.length) :
    A ∈ iteration_callbacks base acts ∧ B ∈ iteration_callbacks base acts ∧
    ∀ l1 l2, iteration_callbacks base acts = l1 ++ B :: l2 → A ∈ l1 ∧ A ∉ B :: l2 := by
  have hidx := queues_indexed_of_empty 0 base.activequeues hempty
  obtain ⟨s1, _, s3⟩ := foldl_event_active_spec acts base hidx
  have hrun : iteration_callbacks base acts
      = queues_flatten (acts.foldl event_active base).activequeues :=
    event_process_active_eq _
  have hsorted := (queues_flatten_sorted 0 _ s1).2
  rw [← hrun] at hsorted
  have hAin : A ∈ iteration_callbacks base acts := by
    rw [hrun, s3]
    exact Or.inr ⟨hA, by omega⟩
  have hBin : B ∈ iteration_callbacks base acts := by
    rw [hrun, s3]
    exact Or.inr ⟨hB, hpri⟩
  refine ⟨hAin, hBin, ?_⟩
  intro l1 l2 hsplit
  rw [hsplit] at hsorted hAin
  have hnot : A ∉ B :: l2 := by
    intro hmem
    rcases List.mem_cons.mp hmem with h | h
    · rw [h] at hlt
      exact absurd hlt (lt_irrefl _)
    · have hp := (List.pairwise_append.mp hsorted).2.1
      have := List.rel_of_pairwise_cons hp h
      omega
  rcases List.mem_append.mp hAin with h | h
  · exact ⟨h, hnot⟩
  · exact absurd h hnot

/-- C12 at the scenario of the spec: two events of priorities 0 and 1 are activated by
the same wakeup, the one of priority 1 first; the callbacks run in the order
[prio-0, prio-1]. -/
theorem higher_priority_callback_runs_first_witness :
    iteration_callbacks base_two_priorities [ev_prio1, ev_prio0] = [ev_prio0, ev_prio1] ∧
    (ev_prio0 ∈ iteration_callbacks base_two_priorities [ev_prio1, ev_prio0] ∧
     ev_prio1 ∈ iteration_callbacks base_two_priorities [ev_prio1, ev_prio0] ∧
     ∀ l1 l2, iteration_callbacks base_two_priorities [ev_prio1, ev_prio0]
        = l1 ++ ev_prio1 :: l2 → ev_prio0 ∈ l1 ∧ ev_prio0 ∉ ev_prio1 :: l2) :=
  ⟨by decide,
   higher_priority_callback_runs_first base_two_priorities [ev_prio1, ev_prio0]
     ev_prio0 ev_prio1 (by decide) (by decide) (by decide) (by decide) (by decide)⟩

/-- C13: an event created with `EV_PERSIST` and added with timeout `t` remains pending
after it is activated at time `now` because its timeout elapsed, and its next deadline
is `now + t`; an event created without `EV_PERSIST` is no longer pending after that
activation, nor after an activation for any other reason. -/
theorem persistent_timeout_rescheduled (base : event_base) (fd : Int) (events cb : Nat)
    (t now0 now : timeval)
    (helapsed : evutil_timercmp (evutil_timeradd now0 t) now cmp_op.le = true) :
    (events &&& EV_PERSIST ≠ 0 →
      (timeout_process (event_add (event_new base fd events cb) (some t) now0) now).pending
        = true ∧
      (timeout_process (event_add (event_new base fd events cb) (some t) now0) now).deadline
        = some (evutil_timeradd now t) ∧
      (evutil_timeradd now t).tv_sec * 1000000 + (evutil_timeradd now t).tv_usec
        = (now.tv_sec * 1000000 + now.tv_usec) + (t.tv_sec * 1000000 + t.tv_usec)) ∧
    (events &&& EV_PERSIST = 0 →
      (timeout_process (event_add (event_new base fd events cb) (some t) now0) now).pending
        = false) ∧
    (∀ (ev : event) (at_time : timeval), ev.ev_events &&& EV_PERSIST = 0 →
      (event_activated ev at_time).pending = false) := by
  have hproc : timeout_process (event_add (event_new base fd events cb) (some t) now0) now
      = event_activated (event_add (event_new base fd events cb) (some t) now0) now := by
    simp [timeout_process, event_add, event_new, helapsed]
  refine ⟨?_, ?_, ?_⟩
  · intro hp
    rw [hproc]
    refine ⟨?_, ?_, ?_⟩
    · simp [event_activated, event_add, event_new, hp]
    · simp [event_activated, event_add, event_new, hp]
    · unfold evutil_timeradd
      by_cases hc : now.tv_usec + t.tv_usec ≥ 1000000
      · simp only [hc, if_true]
        omega
      · simp only [hc, if_false]
        omega
  · intro hp
    rw [hproc]
    simp [event_activated, event_add, event_new, hp]
  · intro ev at_time hp
    simp [event_activated, hp]

/-- C13 at a concrete input: a persistent timer added at 10.6 s with timeout 1.5 s and
activated by its timeout at 12.2 s stays pending with deadline 13.7 s; the same timer
without `EV_PERSIST` is no longer pending. -/
theorem persistent_timeout_rescheduled_witness :
    (timeout_process (event_add (event_new base_two_priorities (-1) EV_PERSIST 7)
        (some ⟨1, 500000⟩) ⟨10, 600000⟩) ⟨12, 200000⟩).pending = true ∧
    (timeout_process (event_add (event_new base_two_priorities (-1) EV_PERSIST 7)
        (some ⟨1, 500000⟩) ⟨10, 600000⟩) ⟨12, 200000⟩).deadline = some ⟨13, 700000⟩ ∧
    (timeout_process (event_add (event_new base_two_priorities (-1) 0 7)
        (some ⟨1, 500000⟩) ⟨10, 600000⟩) ⟨12, 200000⟩).pending = false :=
  have hp := (persistent_timeout_rescheduled base_two_priorities (-1) EV_PERSIST 7
    ⟨1, 500000⟩ ⟨10, 600000⟩ ⟨12, 200000⟩ (by decide)).1 (by decide)
  have hn := (persistent_timeout_rescheduled base_two_priorities (-1) 0 7
    ⟨1, 500000⟩ ⟨10, 600000⟩ ⟨12, 200000⟩ (by decide)).2.1 (by decide)
  ⟨hp.1, hp.2.1.trans (by decide), hn⟩

/-! ## Theorems: the evsignal and evtimer aliases -/

/-- C18: `evsignal_new(b, x, cb, arg)` and `evsignal_assign(ev, b, x, cb, arg)` are
`event_new` and `event_assign` with the same base, `x` as the fd, the same callback and
argument, and the mask `EV_SIGNAL|EV_PERSIST` = 0x18, which has `EV_PERSIST` set; the
SIGINT event of hello-world.c is created by this `event_new` call; an event created with
this mask and added is still pending after it is activated. -/
theorem evsignal_aliases_persistent {Base Ev Cb Arg Tv : Type}
    (ev : Ev) (b : Base) (x : Int) (cb : Cb) (arg : Arg) :
    (evsignal_new b x cb arg : event_call Base Ev Cb Arg Tv)
      = event_call.event_new b x (EV_SIGNAL ||| EV_PERSIST) cb arg ∧
    (evsignal_assign ev b x cb arg : event_call Base Ev Cb Arg Tv)
      = event_call.event_assign ev b x (EV_SIGNAL ||| EV_PERSIST) cb arg ∧
    EV_SIGNAL ||| EV_PERSIST = 0x18 ∧
    (EV_SIGNAL ||| EV_PERSIST) &&& EV_PERSIST ≠ 0 ∧
    (∀ (lib : HelloWorld.Lib) (argc : Int) (argv : List String) (base listener : Nat),
      lib.event_base_new = some base → lib.evconnlistener_new_bind = some listener →
      ∃ c, HelloWorld.Call.of_event_new
            (evsignal_new base lib.SIGINT HelloWorld.callback.signal_cb base) = some c ∧
          c ∈ (HelloWorld.main lib argc argv).1) ∧
    (∀ (eb : event_base) (fd : Int) (cbref : Nat) (tv : Option timeval)
        (now0 now : timeval),
      (event_activated (event_add (event_new eb fd (EV_SIGNAL ||| EV_PERSIST) cbref) tv now0)
        now).pending = true) := by
  refine ⟨rfl, rfl, by decide, by decide, ?_, ?_⟩
  · intro lib argc argv base listener h1 h2
    refine ⟨_, rfl, ?_⟩
    unfold HelloWorld.main
    rw [h1]
    simp only [h2]
    cases h3 : lib.event_new with
    | none => simp
    | some sev =>
      by_cases h4 : lib.event_add < 0
      · simp [h4]
      · simp [h4]
  · intro eb fd cbref tv now0 now
    have hp : (EV_SIGNAL ||| EV_PERSIST) &&& EV_PERSIST ≠ 0 := by decide
    cases tv with
    | none => simp [event_activated, event_add, event_new, hp]
    | some t => simp [event_activated, event_add, event_new, hp]

/-- C18 at the call of hello-world.c: `evsignal_new(base, SIGINT, signal_cb, base)` with
base 1 and SIGINT = 2 is the `event_new` call in the trace of `main`. -/
theorem evsignal_aliases_persistent_witness :
    HelloWorld.Call.of_event_new (evsignal_new 1 2 HelloWorld.callback.signal_cb 1)
      = some (HelloWorld.Call.event_new 1 2 0x18 HelloWorld.callback.signal_cb 1) ∧
    HelloWorld.Call.event_new 1 2 0x18 HelloWorld.callback.signal_cb 1
      ∈ (HelloWorld.main HelloWorld.lib_ok 1 ["hello-world"]).1 ∧
    ((evsignal_new 1 2 HelloWorld.callback.signal_cb 1 :
        event_call Nat Nat HelloWorld.callback Nat (Option timeval))
      = event_call.event_new 1 2 (EV_SIGNAL ||| EV_PERSIST) HelloWorld.callback.signal_cb 1) :=
  ⟨by decide, by decide,
   (@evsignal_aliases_persistent Nat Nat HelloWorld.callback Nat (Option timeval) 0 1 2
      HelloWorld.callback.signal_cb 1).1⟩

/-- C19: `evtimer_new(b, cb, arg)` and `evtimer_assign(ev, b, cb, arg)` are `event_new`
and `event_assign` with fd -1 and the empty mask 0, which has no `EV_PERSIST`;
`evtimer_add` and `evtimer_del` are `event_add` and `event_del`; `evtimer_pending(ev, tv)`
is `event_pending(ev, EV_TIMEOUT, tv)`; an event created with the mask 0 and added is no
longer pending after it is activated. -/
theorem evtimer_aliases_one_shot {Base Ev Cb Arg Tv : Type}
    (ev : Ev) (b : Base) (cb : Cb) (arg : Arg) (tv : Tv) :
    (evtimer_new b cb arg : event_call Base Ev Cb Arg Tv)
      = event_call.event_new b (-1) 0 cb arg ∧
    (evtimer_assign ev b cb arg : event_call Base Ev Cb Arg Tv)
      = event_call.event_assign ev b (-1) 0 cb arg ∧
    (evtimer_add ev tv : event_call Base Ev Cb Arg Tv) = event_call.event_add ev tv ∧
    (evtimer_del ev : event_call Base Ev Cb Arg Tv) = event_call.event_del ev ∧
    (evtimer_pending ev tv : event_call Base Ev Cb Arg Tv)
      = event_call.event_pending ev EV_TIMEOUT tv ∧
    (0 : Nat) &&& EV_PERSIST = 0 ∧
    (∀ (eb : event_base) (cbref : Nat) (t : Option timeval) (now0 now : timeval),
      (event_activated (event_add (event_new eb (-1) 0 cbref) t now0) now).pending
        = false) := by
  refine ⟨rfl, rfl, rfl, rfl, rfl, by decide, ?_⟩
  intro eb cbref t now0 now
  cases t with
  | none => simp [event_activated, event_add, event_new]
  | some t => simp [event_activated, event_add, event_new]

/-! ## Theorems: token-bucket rate limiting -/

/-- One operation that is not a manual refill keeps both token counts within the
bursts. -/
theorem bucket_apply_within_burst (cfg : ev_token_bucket_cfg) (b : ev_token_bucket)
    (op : bucket_op) (hop : op.is_manual_refill = false)
    (hr : b.read_tokens ≤ cfg.read_burst) (hw : b.write_tokens ≤ cfg.write_burst) :
    (bucket_apply cfg b op).read_tokens ≤ cfg.read_burst ∧
    (bucket_apply cfg b op).write_tokens ≤ cfg.write_burst := by
  cases op with
  | tick_refill =>
    simp only [bucket_apply]
    exact ⟨min_le_right _ _, min_le_right _ _⟩
  | io_read n =>
    simp only [bucket_apply]
    constructor <;> omega
  | io_write n =>
    simp only [bucket_apply]
    constructor <;> omega
  | bufferevent_decrement_read_limit decr =>
    simp only [bucket_op.is_manual_refill, decide_eq_false_iff_not] at hop
    simp only [bucket_apply]
    constructor <;> omega
  | bufferevent_decrement_write_limit decr =>
    simp only [bucket_op.is_manual_refill, decide_eq_false_iff_not] at hop
    simp only [bucket_apply]
    constructor <;> omega

/-- C14 (amended): for a bucket whose read and write token counts start within the
configured bursts, after every sequence of per-tick refills, I/O consumptions and manual
decrements with a non-negative decrement, the read and write token counts, as
`bufferevent_get_read_limit` and `bufferevent_get_write_limit` report them, are at most
the configured bursts. -/
theorem tokens_within_burst (cfg : ev_token_bucket_cfg) (b : ev_token_bucket)
    (ops : List bucket_op)
    (hr : b.read_tokens ≤ cfg.read_burst) (hw : b.write_tokens ≤ cfg.write_burst)
    (hops : ∀ op ∈ ops, op.is_manual_refill = false) :
    bufferevent_get_read_limit (bucket_run cfg b ops) ≤ cfg.read_burst ∧
    bufferevent_get_write_limit (bucket_run cfg b ops) ≤ cfg.write_burst := by
  induction ops generalizing b with
  | nil => exact ⟨hr, hw⟩
  | cons op ops ih =>
    obtain ⟨h1, h2⟩ :=
      bucket_apply_within_burst cfg b op (hops op (List.mem_cons_self op ops)) hr hw
    exact ih (bucket_apply cfg b op) h1 h2
      (fun o ho => hops o (List.mem_cons_of_mem op ho))

/-- C14 at a concrete run: from a full bucket of burst 1000, reading 300 bytes, a
decrement of 200, a tick and a write of 50 bytes leave 1000 read tokens and 950 write
tokens. -/
theorem tokens_within_burst_witness :
    bucket_run cfg_1000 bucket_full_1000
        [.io_read 300, .bufferevent_decrement_read_limit 200, .tick_refill, .io_write 50]
      = { read_tokens := 1000, write_tokens := 950, last_refill := 1 } ∧
    (bufferevent_get_read_limit (bucket_run cfg_1000 bucket_full_1000
        [.io_read 300, .bufferevent_decrement_read_limit 200, .tick_refill, .io_write 50])
      ≤ cfg_1000.read_burst ∧
     bufferevent_get_write_limit (bucket_run cfg_1000 bucket_full_1000
        [.io_read 300, .bufferevent_decrement_read_limit 200, .tick_refill, .io_write 50])
      ≤ cfg_1000.write_burst) :=
  ⟨by decide,
   tokens_within_burst cfg_1000 bucket_full_1000
     [.io_read 300, .bufferevent_decrement_read_limit 200, .tick_refill, .io_write 50]
     (by decide) (by decide) (by decide)⟩

/-- C14 as stated fails for a negative decrement: on a full bucket of burst 1000,
`bufferevent_decrement_read_limit(bev, -500)` leaves 1500 read tokens, and
`bufferevent_decrement_write_limit(bev, -1)` leaves 1001 write tokens. -/
theorem tokens_negative_decrement_counterexample :
    bucket_full_1000.read_tokens ≤ cfg_1000.read_burst ∧
    bufferevent_get_read_limit (bucket_run cfg_1000 bucket_full_1000
        [.bufferevent_decrement_read_limit (-500)]) = 1500 ∧
    ¬ (bufferevent_get_read_limit (bucket_run cfg_1000 bucket_full_1000
        [.bufferevent_decrement_read_limit (-500)]) ≤ cfg_1000.read_burst) ∧
    ¬ (bufferevent_get_write_limit (bucket_run cfg_1000 bucket_full_1000
        [.bufferevent_decrement_write_limit (-1)]) ≤ cfg_1000.write_burst) := by
  decide

/-! ## Theorems: reading lines from an evbuffer -/

theorem cons_prefix_drop_iff (a : Nat) (w bs : List Nat) (q : Nat) :
    a :: w <+: bs.drop q ↔ bs[q]? = some a ∧ w <+: bs.drop (q + 1) := by
  induction bs generalizing q with
  | nil => simp
  | cons x xs ih =>
    cases q with
    | zero =>
      simp only [List.drop_zero, List.cons_prefix_cons, List.getElem?_cons_zero,
        Option.some.injEq, List.drop_succ_cons]
      constructor
      · rintro ⟨h1, h2⟩
        exact ⟨h1.symm, h2⟩
      · rintro ⟨h1, h2⟩
        exact ⟨h1.symm, h2⟩
    | succ q => simpa using ih q

theorem singleton_prefix_drop_iff (a : Nat) (bs : List Nat) (q : Nat) :
    [a] <+: bs.drop q ↔ bs[q]? = some a := by
  rw [cons_prefix_drop_iff]
  simp

theorem evbuffer_search_needle_spec (B : evbuffer) (w : List Nat) (hw : w ≠ []) :
    (evbuffer_search B w w.length none = -1 ∧ ∀ q, ¬ w <+: B.contents.drop q) ∨
    (∃ p : Nat, evbuffer_search B w w.length none = (p : Int) ∧
      w <+: B.contents.drop p ∧ ∀ q, q < p → ¬ w <+: B.contents.drop q) := by
  have hs : evbuffer_search B w w.length none = search_bytes w B.contents 0 := by
    simp [evbuffer_search, List.take_length]
  rw [hs]
  rcases search_bytes_spec w B.contents 0 with ⟨h1, h2⟩ | ⟨k, h1, _, h3, h4⟩
  · left
    refine ⟨h1, ?_⟩
    intro q hq
    by_cases hle : q ≤ B.contents.length
    · exact h2 q hle hq
    · rw [List.drop_eq_nil_of_le (by omega)] at hq
      exact hw (List.prefix_nil.mp hq)
  · right
    exact ⟨k, by rw [h1, Nat.zero_add], h3, h4⟩

theorem find_eol_char_spec (bs : List Nat) (pos : Nat) :
    (find_eol_char bs pos = none ∧ ∀ (q c : Nat), bs[q]? = some c → is_cr_or_lf c = false) ∨
    (∃ k c : Nat, find_eol_char bs pos = some (pos + k) ∧ bs[k]? = some c ∧
      is_cr_or_lf c = true ∧
      ∀ (q d : Nat), q < k → bs[q]? = some d → is_cr_or_lf d = false) := by
  induction bs generalizing pos with
  | nil =>
    left
    exact ⟨rfl, fun q c h => by simp at h⟩
  | cons b bs ih =>
    unfold find_eol_char
    by_cases hb : is_cr_or_lf b = true
    · right
      refine ⟨0, b, by simp [hb], by simp, hb, ?_⟩
      intro q d hq
      omega
    · rw [if_neg hb]
      have hb2 : is_cr_or_lf b = false := by simpa using hb
      rcases ih (pos + 1) with ⟨h1, h2⟩ | ⟨k, c, h1, h2, h3, h4⟩
      · left
        refine ⟨h1, ?_⟩
        intro q c hq
        cases q with
        | zero =>
          simp only [List.getElem?_cons_zero, Option.some.injEq] at hq
          rw [← hq]
          exact hb2
        | succ q => exact h2 q c (by simpa using hq)
      · right
        refine ⟨k + 1, c, ?_, by simpa using h2, h3, ?_⟩
        · rw [h1]
          congr 1
          omega
        · intro q d hq hd
          cases q with
          | zero =>
            simp only [List.getElem?_cons_zero, Option.some.injEq] at hd
            rw [← hd]
            exact hb2
          | succ q => exact h4 q d (by omega) (by simpa using hd)

theorem span_cr_lf_spec (l : List Nat) :
    span_cr_lf l ≤ l.length ∧ ∀ c ∈ l.take (span_cr_lf l), is_cr_or_lf c = true := by
  induction l with
  | nil => simp [span_cr_lf]
  | cons b l ih =>
    unfold span_cr_lf
    by_cases hb : is_cr_or_lf b = true
    · rw [if_pos hb]
      refine ⟨by simpa using ih.1, ?_⟩
      intro c hc
      rw [List.take_succ_cons] at hc
      rcases List.mem_cons.mp hc with h | h
      · rw [h]
        exact hb
      · exact ih.2 c h
    · rw [if_neg hb]
      simp

theorem is_eol_ne_nil (style : evbuffer_eol_style) (e : List Nat) (h : style.is_eol e) :
    e ≠ [] := by
  cases style with
  | EVBUFFER_EOL_ANY => exact h.1
  | EVBUFFER_EOL_CRLF =>
    rcases h with h | h <;> simp [h]
  | EVBUFFER_EOL_CRLF_STRICT =>
    have h1 : e = [13, 10] := h
    simp [h1]
  | EVBUFFER_EOL_LF =>
    have h1 : e = [10] := h
    simp [h1]
  | EVBUFFER_EOL_NUL =>
    have h1 : e = [0] := h
    simp [h1]

theorem evbuffer_remove_freeze_start (buf : evbuffer) (n : Nat) :
    (evbuffer_remove buf n).2.2.freeze_start = buf.freeze_start := by
  unfold evbuffer_remove evbuffer_drain
  simp only []
  split_ifs <;> rfl

/-- What `evbuffer_search_eol` reports: -1 when no EOL of the style starts anywhere in
the buffer, and otherwise the least offset at which one starts, with the length of the
EOL found there. -/
theorem evbuffer_search_eol_spec (B : evbuffer) (style : evbuffer_eol_style) :
    ((evbuffer_search_eol B style).1 = -1 ∧ ∀ q, ¬ style.eol_at B.contents q) ∨
    (∃ (p : Nat) (eol : List Nat),
      evbuffer_search_eol B style = ((p : Int), eol.length) ∧
      style.is_eol eol ∧ eol <+: B.contents.drop p ∧
      ∀ q, q < p → ¬ style.eol_at B.contents q) := by
  cases style with
  | EVBUFFER_EOL_ANY =>
    simp only [evbuffer_search_eol]
    have hno : ∀ q, (∀ d : Nat, B.contents[q]? = some d → is_cr_or_lf d = false) →
        ¬ evbuffer_eol_style.EVBUFFER_EOL_ANY.eol_at B.contents q := by
      rintro q hq ⟨e, ⟨hne, hall⟩, hpre⟩
      cases e with
      | nil => exact hne rfl
      | cons x e1 =>
        have h1 := ((cons_prefix_drop_iff x e1 B.contents q).mp hpre).1
        have h2 := hq x h1
        have h3 := hall x (List.mem_cons_self x e1)
        rw [h2] at h3
        cases h3
    rcases find_eol_char_spec B.contents 0 with ⟨h1, h2⟩ | ⟨k, c, h1, h2, h3, h4⟩
    · left
      rw [h1]
      exact ⟨rfl, fun q => hno q (h2 q)⟩
    · right
      rw [h1, Nat.zero_add]
      obtain ⟨t, ht⟩ := (singleton_prefix_drop_iff c B.contents k).mpr h2
      have hsp := span_cr_lf_spec (B.contents.drop k)
      refine ⟨k, (B.contents.drop k).take (span_cr_lf (B.contents.drop k)), ?_,
        ⟨?_, hsp.2⟩, List.take_prefix _ _, fun q hq => hno q (fun d hd => h4 q d hq hd)⟩
      · rw [List.length_take, Nat.min_eq_left hsp.1]
      · rw [← ht]
        simp [span_cr_lf, h3]
  | EVBUFFER_EOL_CRLF =>
    simp only [evbuffer_search_eol]
    have hlf : ∀ q, evbuffer_eol_style.EVBUFFER_EOL_CRLF.eol_at B.contents q →
        [10] <+: B.contents.drop q ∨
        (B.contents[q]? = some 13 ∧ [10] <+: B.contents.drop (q + 1)) := by
      rintro q ⟨e, he, hpre⟩
      rcases he with he | he
      · left
        rw [he] at hpre
        exact hpre
      · right
        rw [he] at hpre
        exact (cons_prefix_drop_iff 13 [10] B.contents q).mp hpre
    have hspec : (evbuffer_search B [10] 1 none = -1 ∧ ∀ q, ¬ [10] <+: B.contents.drop q) ∨
        (∃ p : Nat, evbuffer_search B [10] 1 none = (p : Int) ∧
          [10] <+: B.contents.drop p ∧ ∀ q, q < p → ¬ [10] <+: B.contents.drop q) :=
      evbuffer_search_needle_spec B [10] (by simp)
    rcases hspec with ⟨h1, h2⟩ | ⟨p, h1, h2, h3⟩
    · left
      rw [h1]
      refine ⟨by simp, ?_⟩
      intro q hq
      rcases hlf q hq with h | ⟨_, h⟩
      · exact h2 q h
      · exact h2 (q + 1) h
    · right
      rw [h1]
      have hnn : ¬ ((p : Int) < 0) := by omega
      rw [if_neg hnn, Int.toNat_ofNat]
      by_cases hc : 0 < (p : Int) ∧ B.contents[p - 1]? = some 13
      · rw [if_pos hc]
        have hp : 0 < p := by omega
        refine ⟨p - 1, [13, 10], ?_, Or.inr rfl, ?_, ?_⟩
        · have : ((p - 1 : Nat) : Int) = (p : Int) - 1 := by omega
          rw [this]
          rfl
        · rw [cons_prefix_drop_iff]
          refine ⟨hc.2, ?_⟩
          rw [Nat.sub_add_cancel hp]
          exact h2
        · intro q hq hq2
          rcases hlf q hq2 with h | ⟨_, h⟩
          · exact h3 q (by omega) h
          · exact h3 (q + 1) (by omega) h
      · rw [if_neg hc]
        refine ⟨p, [10], rfl, Or.inl rfl, h2, ?_⟩
        intro q hq hq2
        rcases hlf q hq2 with h | ⟨h13, h⟩
        · exact h3 q hq h
        · by_cases hqp : q + 1 < p
          · exact h3 (q + 1) hqp h
          · have hqe : q = p - 1 := by omega
            apply hc
            refine ⟨by omega, ?_⟩
            rw [← hqe]
            exact h13
  | EVBUFFER_EOL_CRLF_STRICT =>
    simp only [evbuffer_search_eol]
    have hspec : (evbuffer_search B [13, 10] 2 none = -1 ∧
          ∀ q, ¬ [13, 10] <+: B.contents.drop q) ∨
        (∃ p : Nat, evbuffer_search B [13, 10] 2 none = (p : Int) ∧
          [13, 10] <+: B.contents.drop p ∧ ∀ q, q < p → ¬ [13, 10] <+: B.contents.drop q) :=
      evbuffer_search_needle_spec B [13, 10] (by simp)
    rcases hspec with ⟨h1, h2⟩ | ⟨p, h1, h2, h3⟩
    · left
      refine ⟨h1, ?_⟩
      rintro q ⟨e, he, hpre⟩
      have he1 : e = [13, 10] := he
      rw [he1] at hpre
      exact h2 q hpre
    · right
      refine ⟨p, [13, 10], by rw [h1]; rfl, rfl, h2, ?_⟩
      rintro q hq ⟨e, he, hpre⟩
      have he1 : e = [13, 10] := he
      rw [he1] at hpre
      exact h3 q hq hpre
  | EVBUFFER_EOL_LF =>
    simp only [evbuffer_search_eol]
    have hspec : (evbuffer_search B [10] 1 none = -1 ∧ ∀ q, ¬ [10] <+: B.contents.drop q) ∨
        (∃ p : Nat, evbuffer_search B [10] 1 none = (p : Int) ∧
          [10] <+: B.contents.drop p ∧ ∀ q, q < p → ¬ [10] <+: B.contents.drop q) :=
      evbuffer_search_needle_spec B [10] (by simp)
    rcases hspec with ⟨h1, h2⟩ | ⟨p, h1, h2, h3⟩
    · left
      refine ⟨h1, ?_⟩
      rintro q ⟨e, he, hpre⟩
      have he1 : e = [10] := he
      rw [he1] at hpre
      exact h2 q hpre
    · right
      refine ⟨p, [10], by rw [h1]; rfl, rfl, h2, ?_⟩
      rintro q hq ⟨e, he, hpre⟩
      have he1 : e = [10] := he
      rw [he1] at hpre
      exact h3 q hq hpre
  | EVBUFFER_EOL_NUL =>
    simp only [evbuffer_search_eol]
    have hspec : (evbuffer_search B [0] 1 none = -1 ∧ ∀ q, ¬ [0] <+: B.contents.drop q) ∨
        (∃ p : Nat, evbuffer_search B [0] 1 none = (p : Int) ∧
          [0] <+: B.contents.drop p ∧ ∀ q, q < p → ¬ [0] <+: B.contents.drop q) :=
      evbuffer_search_needle_spec B [0] (by simp)
    rcases hspec with ⟨h1, h2⟩ | ⟨p, h1, h2, h3⟩
    · left
      refine ⟨h1, ?_⟩
      rintro q ⟨e, he, hpre⟩
      have he1 : e = [0] := he
      rw [he1] at hpre
      exact h2 q hpre
    · right
      refine ⟨p, [0], by rw [h1]; rfl, rfl, h2, ?_⟩
      rintro q hq ⟨e, he, hpre⟩
      have he1 : e = [0] := he
      rw [he1] at hpre
      exact h3 q hq hpre

/-- C11: for every evbuffer and each of the five EOL styles, when `evbuffer_readln`
returns a line, the content of the buffer was that line, then an EOL of the style, then
what is left in the buffer, and no EOL of the style starts inside the line: the line is
the bytes before the first EOL and holds none of the bytes of that EOL. It does return a
line whenever the buffer is not frozen at the front and holds an EOL of the style. -/
theorem evbuffer_readln_line_before_first_eol (B : evbuffer) (style : evbuffer_eol_style) :
    (∀ line, (evbuffer_readln B style).1 = some line →
      ∃ eol, style.is_eol eol ∧
        B.contents = line ++ eol ++ (evbuffer_readln B style).2.contents ∧
        ∀ q, q < line.length → ¬ style.eol_at B.contents q) ∧
    (B.freeze_start = false → (∃ q, style.eol_at B.contents q) →
      ∃ line, (evbuffer_readln B style).1 = some line) := by
  by_cases hf : B.freeze_start = true
  · constructor
    · intro line hline
      simp [evbuffer_readln, hf] at hline
    · intro hnf
      rw [hf] at hnf
      cases hnf
  · have hf0 : B.freeze_start = false := by simpa using hf
    rcases evbuffer_search_eol_spec B style with ⟨h1, h2⟩ | ⟨p, eol, h1, h2, h3, h4⟩
    · constructor
      · intro line hline
        simp [evbuffer_readln, hf0, h1] at hline
      · rintro _ ⟨q, hq⟩
        exact absurd hq (h2 q)
    · have hne := is_eol_ne_nil style eol h2
      obtain ⟨t, ht⟩ := h3
      have hp : p < B.contents.length := by
        by_contra hge
        rw [List.drop_eq_nil_of_le (by omega)] at ht
        exact hne (List.append_eq_nil.mp ht).1
      have htake : (B.contents.take p).length = p := by
        rw [List.length_take]
        omega
      obtain ⟨_, r2, r3⟩ := evbuffer_remove_unfrozen B p hf0
      rw [htake] at r3
      have rfz : (evbuffer_remove B p).2.2.freeze_start = false := by
        rw [evbuffer_remove_freeze_start, hf0]
      obtain ⟨_, d2, _⟩ := evbuffer_drain_unfrozen (evbuffer_remove B p).2.2 eol.length rfz
      have hnn : ¬ ((p : Int) < 0) := by omega
      have hres : evbuffer_readln B style
          = (some (evbuffer_remove B p).2.1,
             (evbuffer_drain (evbuffer_remove B p).2.2 eol.length).2) := by
        simp [evbuffer_readln, hf0, h1, hnn]
      have hrest : (evbuffer_drain (evbuffer_remove B p).2.2 eol.length).2.contents = t := by
        rw [d2, r3, ← ht, List.drop_left]
      constructor
      · intro line hline
        rw [hres] at hline ⊢
        simp only [Option.some.injEq] at hline
        rw [r2] at hline
        subst hline
        refine ⟨eol, h2, ?_, ?_⟩
        · rw [hrest, List.append_assoc, ht, List.take_append_drop]
        · intro q hq
          rw [htake] at hq
          exact h4 q hq
      · intro _ _
        exact ⟨_, by rw [hres]⟩

/-- C11 at the scenario of the spec: from the content "a\r\nb\nc\r\n", `evbuffer_readln`
with `EVBUFFER_EOL_CRLF_STRICT` first returns "a", and "b\nc\r\n" is left. -/
theorem evbuffer_readln_line_before_first_eol_witness :
    (evbuffer_readln buf_lines .EVBUFFER_EOL_CRLF_STRICT).1 = some (ascii "a") ∧
    (evbuffer_readln buf_lines .EVBUFFER_EOL_CRLF_STRICT).2.contents = ascii "b\nc\r\n" ∧
    (∃ eol, evbuffer_eol_style.EVBUFFER_EOL_CRLF_STRICT.is_eol eol ∧
      buf_lines.contents
        = ascii "a" ++ eol ++ (evbuffer_readln buf_lines .EVBUFFER_EOL_CRLF_STRICT).2.contents ∧
      ∀ q, q < (ascii "a").length →
        ¬ evbuffer_eol_style.EVBUFFER_EOL_CRLF_STRICT.eol_at buf_lines.contents q) :=
  ⟨by decide, by decide,
   (evbuffer_readln_line_before_first_eol buf_lines .EVBUFFER_EOL_CRLF_STRICT).1
     (ascii "a") (by decide)⟩

/-! ## Theorems: hello-world.c, set-up, callbacks and tear-down -/

namespace HelloWorld

/-- C21: when `event_base_new` succeeds, the one `evconnlistener_new_bind` call of `main`
passes a `sockaddr_in` that is zero except for `sin_family = AF_INET` and
`sin_port = htons(9995)`, whose bytes are 0x27 then 0x0B, the flags
`LEV_OPT_REUSEABLE|LEV_OPT_CLOSE_ON_FREE` (0x0A, in which only these two of the
`LEV_OPT_*` flags are set) and the backlog -1. -/
theorem main_binds_wildcard_port_9995 (lib : Lib) (argc : Int) (argv : List String)
    (base : event_base) (h : lib.event_base_new = some base) :
    (main lib argc argv).1.filter Call.is_evconnlistener_new_bind
      = [Call.evconnlistener_new_bind base callback.listener_cb base
          (LEV_OPT_REUSEABLE ||| LEV_OPT_CLOSE_ON_FREE) (-1)
          { sin_family := lib.AF_INET, sin_port := [0x27, 0x0B], sin_addr := 0 }
          lib.sizeof_sockaddr_in] ∧
    htons PORT = [0x27, 0x0B] ∧ PORT = 9995 ∧ 0x27 * 256 + 0x0B = PORT ∧
    LEV_OPT_REUSEABLE ||| LEV_OPT_CLOSE_ON_FREE = 0x0A ∧
    (∀ f ∈ LEV_OPT_flags,
      ((LEV_OPT_REUSEABLE ||| LEV_OPT_CLOSE_ON_FREE) &&& f ≠ 0
        ↔ f ∈ [LEV_OPT_REUSEABLE, LEV_OPT_CLOSE_ON_FREE])) := by
  have hport : htons PORT = [0x27, 0x0B] := by decide
  refine ⟨?_, hport, rfl, by decide, by decide, by decide⟩
  unfold main
  rw [h]
  simp only [hport]
  cases h2 : lib.evconnlistener_new_bind with
  | none => simp [Call.is_evconnlistener_new_bind]
  | some listener =>
    cases h3 : lib.event_new with
    | none => simp [Call.is_evconnlistener_new_bind]
    | some ev =>
      by_cases h4 : lib.event_add < 0
      · simp [h4, Call.is_evconnlistener_new_bind]
      · simp [h4, Call.is_evconnlistener_new_bind]

/-- C21 at a concrete run: with AF_INET = 2 and a 16-byte `sockaddr_in`, `main` binds
family 2, port bytes 0x27 0x0B, address 0, with flags 0x0A and backlog -1. -/
theorem main_binds_wildcard_port_9995_witness :
    (main lib_ok 1 ["hello-world"]).1.filter Call.is_evconnlistener_new_bind
      = [Call.evconnlistener_new_bind 1 callback.listener_cb 1 0x0A (-1)
          { sin_family := 2, sin_port := [0x27, 0x0B], sin_addr := 0 } 16] :=
  (main_binds_wildcard_port_9995 lib_ok 1 ["hello-world"] 1 rfl).1

/-- C23: for every bufferevent and every events mask, `conn_eventcb(bev, events, _)`
calls `bufferevent_free(bev)` exactly once and frees nothing else, also for the masks
`BEV_EVENT_TIMEOUT` and `BEV_EVENT_CONNECTED` alone; `conn_writecb` frees at most once,
and only `bev`. -/
theorem conn_eventcb_frees_exactly_once (lib : Lib) (bev : bufferevent) (events : Nat)
    (user_data : Nat) :
    (conn_eventcb lib bev events user_data).filter Call.is_bufferevent_free
      = [Call.bufferevent_free bev] ∧
    conn_eventcb lib bev BEV_EVENT_TIMEOUT user_data = [Call.bufferevent_free bev] ∧
    conn_eventcb lib bev BEV_EVENT_CONNECTED user_data = [Call.bufferevent_free bev] ∧
    ((conn_writecb lib bev user_data).filter Call.is_bufferevent_free).length ≤ 1 ∧
    (∀ c ∈ (conn_writecb lib bev user_data).filter Call.is_bufferevent_free,
      c = Call.bufferevent_free bev) := by
  refine ⟨?_, ?_, ?_, ?_, ?_⟩
  · unfold conn_eventcb
    split_ifs <;> simp [Call.is_bufferevent_free]
  · have h1 : ¬ (BEV_EVENT_TIMEOUT &&& BEV_EVENT_EOF ≠ 0) := by decide
    have h2 : ¬ (BEV_EVENT_TIMEOUT &&& BEV_EVENT_ERROR ≠ 0) := by decide
    simp only [conn_eventcb, if_neg h1, if_neg h2]
  · have h1 : ¬ (BEV_EVENT_CONNECTED &&& BEV_EVENT_EOF ≠ 0) := by decide
    have h2 : ¬ (BEV_EVENT_CONNECTED &&& BEV_EVENT_ERROR ≠ 0) := by decide
    simp only [conn_eventcb, if_neg h1, if_neg h2]
  · unfold conn_writecb
    split_ifs <;> simp [Call.is_bufferevent_free]
  · unfold conn_writecb
    split_ifs <;> simp [Call.is_bufferevent_free]

/-- C23 at concrete masks: with `BEV_EVENT_EOF|BEV_EVENT_READING` the connection-closed
message is printed and bufferevent 7 is freed once; with `BEV_EVENT_ERROR|BEV_EVENT_WRITING`
the error is printed and it is freed once. -/
theorem conn_eventcb_frees_exactly_once_witness :
    conn_eventcb lib_ok 7 (BEV_EVENT_EOF ||| BEV_EVENT_READING) 0
      = [Call.printf "Connection closed.\n", Call.bufferevent_free 7] ∧
    conn_eventcb lib_ok 7 (BEV_EVENT_ERROR ||| BEV_EVENT_WRITING) 0
      = [Call.strerror 0, Call.printf "Got an error on the connection: %s\n",
         Call.bufferevent_free 7] ∧
    (conn_eventcb lib_ok 7 (BEV_EVENT_ERROR ||| BEV_EVENT_WRITING) 0).filter
        Call.is_bufferevent_free = [Call.bufferevent_free 7] :=
  ⟨by decide, by decide,
   (conn_eventcb_frees_exactly_once lib_ok 7 (BEV_EVENT_ERROR ||| BEV_EVENT_WRITING) 0).1⟩

/-- C24: when `bufferevent_socket_new` returns a bufferevent `bev`, the state-changing
calls of `listener_cb` are, in this order, `bufferevent_socket_new(base, fd,
BEV_OPT_CLOSE_ON_FREE)` with the base received as `user_data`, `bufferevent_setcb(bev,
NULL, conn_writecb, conn_eventcb, NULL)`, `bufferevent_enable(bev, EV_WRITE)`,
`bufferevent_disable(bev, EV_READ)` and `bufferevent_write(bev, MESSAGE, 14)`; the only
other call is the `strlen(MESSAGE)` that computes the 14. -/
theorem listener_cb_call_sequence (lib : Lib) (listener : evconnlistener) (fd : Int)
    (sa : Nat) (socklen : Int) (user_data : Nat) (bev : bufferevent)
    (h : lib.bufferevent_socket_new = some bev) :
    (listener_cb lib listener fd sa socklen user_data).filter Call.state_changing
      = [Call.bufferevent_socket_new user_data fd BEV_OPT_CLOSE_ON_FREE,
         Call.bufferevent_setcb bev none (some callback.conn_writecb)
           (some callback.conn_eventcb) none,
         Call.bufferevent_enable bev EV_WRITE,
         Call.bufferevent_disable bev EV_READ,
         Call.bufferevent_write bev MESSAGE 14] ∧
    listener_cb lib listener fd sa socklen user_data
      = [Call.bufferevent_socket_new user_data fd BEV_OPT_CLOSE_ON_FREE,
         Call.bufferevent_setcb bev none (some callback.conn_writecb)
           (some callback.conn_eventcb) none,
         Call.bufferevent_enable bev EV_WRITE,
         Call.bufferevent_disable bev EV_READ,
         Call.strlen MESSAGE,
         Call.bufferevent_write bev MESSAGE 14] ∧
    BEV_OPT_CLOSE_ON_FREE = 1 ∧ EV_WRITE = 4 ∧ EV_READ = 2 := by
  have hlen : strlen MESSAGE = 14 := by decide
  have htrace : listener_cb lib listener fd sa socklen user_data
      = [Call.bufferevent_socket_new user_data fd BEV_OPT_CLOSE_ON_FREE,
         Call.bufferevent_setcb bev none (some callback.conn_writecb)
           (some callback.conn_eventcb) none,
         Call.bufferevent_enable bev EV_WRITE,
         Call.bufferevent_disable bev EV_READ,
         Call.strlen MESSAGE,
         Call.bufferevent_write bev MESSAGE 14] := by
    simp [listener_cb, h, hlen]
  refine ⟨?_, htrace, rfl, rfl, rfl⟩
  rw [htrace]
  simp [Call.state_changing]

/-- C24 at a concrete run: socket 5 accepted on base 1 gets bufferevent 7. -/
theorem listener_cb_call_sequence_witness :
    (listener_cb lib_ok 2 5 0 16 1).filter Call.state_changing
      = [Call.bufferevent_socket_new 1 5 1,
         Call.bufferevent_setcb 7 none (some callback.conn_writecb)
           (some callback.conn_eventcb) none,
         Call.bufferevent_enable 7 4,
         Call.bufferevent_disable 7 2,
         Call.bufferevent_write 7 MESSAGE 14] :=
  (listener_cb_call_sequence lib_ok 2 5 0 16 1 7 rfl).1

/-- C25: when all set-up succeeds, the dispatch and tear-down calls of `main` are, in
this order and once each, `event_base_dispatch(base)`, `evconnlistener_free(listener)`,
`event_free(signal_event)` and `event_base_free(base)`, and they end the run, followed
only by the final `printf`; a run of `main` that returns 1 frees nothing. -/
theorem main_teardown_order (lib : Lib) (argc : Int) (argv : List String)
    (base : event_base) (listener : evconnlistener) (signal_event : event)
    (h1 : lib.event_base_new = some base)
    (h2 : lib.evconnlistener_new_bind = some listener)
    (h3 : lib.event_new = some signal_event)
    (h4 : ¬ lib.event_add < 0) :
    (main lib argc argv).1.filter (fun c => c.is_event_base_dispatch || c.is_teardown)
      = [Call.event_base_dispatch base, Call.evconnlistener_free listener,
         Call.event_free signal_event, Call.event_base_free base] ∧
    [Call.event_base_dispatch base, Call.evconnlistener_free listener,
     Call.event_free signal_event, Call.event_base_free base, Call.printf "done\n"]
      <:+ (main lib argc argv).1 ∧
    (main lib argc argv).2 = 0 ∧
    (∀ lib1 : Lib, (main lib1 argc argv).2 = 1 →
      (main lib1 argc argv).1.filter Call.is_teardown = []) := by
  have hfail : ∀ lib1 : Lib, (main lib1 argc argv).2 = 1 →
      (main lib1 argc argv).1.filter Call.is_teardown = [] := by
    intro lib1
    unfold main
    cases lib1.event_base_new with
    | none => simp [Call.is_teardown]
    | some b1 =>
      cases lib1.evconnlistener_new_bind with
      | none => simp [Call.is_teardown]
      | some l1 =>
        cases lib1.event_new with
        | none => simp [Call.is_teardown]
        | some e1 =>
          by_cases h5 : lib1.event_add < 0
          · simp [h5, Call.is_teardown]
          · simp [h5]
  have hrun : main lib argc argv
      = ([Call.event_base_new, Call.htons PORT,
          Call.evconnlistener_new_bind base callback.listener_cb base
            (LEV_OPT_REUSEABLE ||| LEV_OPT_CLOSE_ON_FREE) (-1)
            { sin_family := lib.AF_INET, sin_port := htons PORT, sin_addr := 0 }
            lib.sizeof_sockaddr_in,
          Call.event_new base lib.SIGINT (EV_SIGNAL ||| EV_PERSIST) callback.signal_cb base,
          Call.event_add signal_event none,
          Call.event_base_dispatch base, Call.evconnlistener_free listener,
          Call.event_free signal_event, Call.event_base_free base,
          Call.printf "done\n"], 0) := by
    unfold main
    rw [h1]
    simp only [h2, h3, if_neg h4]
  rw [hrun]
  refine ⟨?_, ?_, rfl, hfail⟩
  · simp [Call.is_event_base_dispatch, Call.is_teardown]
  · exact ⟨[Call.event_base_new, Call.htons PORT,
      Call.evconnlistener_new_bind base callback.listener_cb base
        (LEV_OPT_REUSEABLE ||| LEV_OPT_CLOSE_ON_FREE) (-1)
        { sin_family := lib.AF_INET, sin_port := htons PORT, sin_addr := 0 }
        lib.sizeof_sockaddr_in,
      Call.event_new base lib.SIGINT (EV_SIGNAL ||| EV_PERSIST) callback.signal_cb base,
      Call.event_add signal_event none], rfl⟩

/-- C25 at a concrete run: base 1, listener 2 and signal event 3 are freed in the order
listener, signal event, base, after the dispatch. -/
theorem main_teardown_order_witness :
    (main lib_ok 1 ["hello-world"]).1.filter
        (fun c => c.is_event_base_dispatch || c.is_teardown)
      = [Call.event_base_dispatch 1, Call.evconnlistener_free 2,
         Call.event_free 3, Call.event_base_free 1] :=
  (main_teardown_order lib_ok 1 ["hello-world"] 1 2 3 rfl rfl rfl (by decide)).1

end HelloWorld

/-! ## Theorems: the number of priorities -/

/-- C22: `EVENT_MAX_PRIORITIES` is 256; a successful `event_base_priority_init` gives the
base between 1 and 256 priorities, and on such a base a priority that
`event_priority_set` accepts is between 0 and 255. -/
theorem EVENT_MAX_PRIORITIES_bounds_priorities :
    EVENT_MAX_PRIORITIES = 256 ∧
    (∀ (base : event_base) (n : Int), (event_base_priority_init base n).1 = 0 →
      1 ≤ n ∧ n ≤ 256 ∧
      (event_base_get_npriorities (event_base_priority_init base n).2 : Int) = n) ∧
    (∀ (base : event_base) (n : Int) (ev : event) (pri : Int),
      (event_base_priority_init base n).1 = 0 →
      (event_priority_set (event_base_priority_init base n).2 ev pri).1 = 0 →
      0 ≤ pri ∧ pri ≤ 255 ∧
      ((event_priority_set (event_base_priority_init base n).2 ev pri).2.ev_pri : Int)
        = pri) := by
  have hinit : ∀ (base : event_base) (n : Int), (event_base_priority_init base n).1 = 0 →
      1 ≤ n ∧ n ≤ 256 ∧
      (event_base_get_npriorities (event_base_priority_init base n).2 : Int) = n := by
    intro base n h
    unfold event_base_priority_init at h ⊢
    by_cases hc : n < 1 ∨ n > (EVENT_MAX_PRIORITIES : Int)
    · rw [if_pos hc] at h
      simp at h
    · rw [if_neg hc]
      have hm : (EVENT_MAX_PRIORITIES : Int) = 256 := rfl
      rw [hm] at hc
      refine ⟨by omega, by omega, ?_⟩
      simp only [event_base_get_npriorities, List.length_replicate]
      omega
  refine ⟨rfl, hinit, ?_⟩
  intro base n ev pri h1 h2
  obtain ⟨i1, i2, i3⟩ := hinit base n h1
  unfold event_priority_set at h2 ⊢
  by_cases hc : pri < 0 ∨
      pri ≥ (event_base_get_npriorities (event_base_priority_init base n).2 : Int)
  · rw [if_pos hc] at h2
    simp at h2
  · rw [if_neg hc]
    rw [i3] at hc
    refine ⟨by omega, by omega, ?_⟩
    show ((pri.toNat : Nat) : Int) = pri
    omega

/-- C22 at concrete inputs: 2 and 256 priorities are accepted on a new base, 257 and 0 are
rejected; with 2 priorities, priority 1 is accepted and priority 2 is rejected. -/
theorem EVENT_MAX_PRIORITIES_bounds_priorities_witness :
    (event_base_priority_init event_base_new 2).1 = 0 ∧
    (event_base_priority_init event_base_new 257).1 = -1 ∧
    (event_base_priority_init event_base_new 0).1 = -1 ∧
    (event_priority_set (event_base_priority_init event_base_new 2).2 ev_prio0 1).1 = 0 ∧
    (event_priority_set (event_base_priority_init event_base_new 2).2 ev_prio0 2).1 = -1 ∧
    ((0 : Int) ≤ 1 ∧ (1 : Int) ≤ 255 ∧
      ((event_priority_set (event_base_priority_init event_base_new 2).2 ev_prio0 1).2.ev_pri
        : Int) = 1) :=
  ⟨by decide, by decide, by decide, by decide, by decide,
   EVENT_MAX_PRIORITIES_bounds_priorities.2.2 event_base_new 2 ev_prio0 1
     (by decide) (by decide)⟩

end LenLibevent
